import Mathlib

/-!
Verification of the Doris storage engine and per-database transaction
manager against its specification.

The definitions below are shallow embeddings of the functions in
src/be/src/olap/storage_engine.cpp and of the Java class
DatabaseTransactionMgr.  Machine integers are modelled as Int or Nat
(no arithmetic here ever approaches 64-bit overflow), C++ shared-pointer
reference counts are modelled by an explicit count, maps are modelled as
association lists, and in-place mutation is modelled by explicit state
passing.
-/

namespace Doris

/-! ## Disk-index LRU for tablet placement
    (StorageEngine::_get_and_set_next_disk_index, CreateTabletIdxCache,
    storage_engine.cpp lines 448-459 and 1386-1409). -/

/-- Storage medium tag of a data directory. -/
inductive StorageMedium
  | hdd
  | ssd
  | remote
deriving DecidableEq

/-- The bounded LRU keyed by (partition_id, medium).  Eviction by the bound
only causes extra cache misses and is not modelled; the miss path below
covers the state after an eviction. -/
structure CreateTabletIdxCache where
  entries : List ((Int × StorageMedium) × Int)
deriving DecidableEq

/-- CreateTabletIdxCache::get_index: the stored index on a hit, -1 on a miss. -/
def CreateTabletIdxCache.get_index (c : CreateTabletIdxCache)
    (key : Int × StorageMedium) : Int :=
  match c.entries.find? (fun e => e.1 = key) with
  | some e => e.2
  | none => -1

/-- CreateTabletIdxCache::set_index: insert (replacing any entry of the key). -/
def CreateTabletIdxCache.set_index (c : CreateTabletIdxCache)
    (key : Int × StorageMedium) (next_idx : Int) : CreateTabletIdxCache :=
  ⟨(key, next_idx) :: c.entries.filter (fun e => ¬ e.1 = key)⟩

/-- The placement-index state of the engine: the LRU plus the per-medium
last used index array. -/
structure DiskIndexState where
  create_tablet_idx_lru_cache : CreateTabletIdxCache
  last_use_index : StorageMedium → Int

/-- StorageEngine::_get_and_set_next_disk_index (storage_engine.cpp 448-459):
returns curr_index and the updated state. -/
def get_and_set_next_disk_index (s : DiskIndexState) (partition_id : Int)
    (storage_medium : StorageMedium) : Int × DiskIndexState :=
  let key := (partition_id, storage_medium)
  let found := s.create_tablet_idx_lru_cache.get_index key
  let curr_index :=
    if found = -1 then max 0 (s.last_use_index storage_medium + 1) else found
  let s1 : DiskIndexState :=
    { s with last_use_index :=
        fun m => if m = storage_medium then curr_index else s.last_use_index m }
  let s2 : DiskIndexState :=
    { s1 with create_tablet_idx_lru_cache :=
        s1.create_tablet_idx_lru_cache.set_index key (max 0 (curr_index + 1)) }
  (curr_index, s2)

/-! ## Trash and snapshot sweeping
    (StorageEngine::start_trash_sweep and StorageEngine::_do_sweep,
    storage_engine.cpp lines 662-754 and 941-1001). -/

/-- One directory entry of a snapshot or trash directory, with the
creation time parsed from its leading YYYYMMDDhhmmss filename component
and the optional trailing embedded ttl_seconds.  Entries are handed to
the sweep in filename order, which for these names is creation order. -/
structure SweepEntry where
  create_time : Int
  embedded_expire : Option Int
deriving DecidableEq

/-- Effective TTL of an entry: the filename-embedded value when present,
else the expire argument of the sweep. -/
def actual_expire (expire : Int) (e : SweepEntry) : Int :=
  match e.embedded_expire with
  | some t => t
  | none => expire

/-- Expiry test of one entry, difftime(local_now, create_time) >= actual_expire. -/
def entry_expired (local_now expire : Int) (e : SweepEntry) : Bool :=
  decide (local_now - e.create_time ≥ actual_expire expire e)

/-- StorageEngine::_do_sweep loop body (storage_engine.cpp 958-994):
walks the name-sorted entries, deletes while expired, and stops at the
first entry that is not expired (all remaining entries are kept).
Returns (deleted entries, remaining entries).  Deletion failures and the
batch-size sleep are not modelled. -/
def do_sweep (local_now expire : Int) : List SweepEntry → List SweepEntry × List SweepEntry
  | [] => ([], [])
  | e :: rest =>
    if entry_expired local_now expire e then
      let r := do_sweep local_now expire rest
      (e :: r.1, r.2)
    else
      ([], e :: rest)

/-- Guard space of start_trash_sweep (storage_engine.cpp 681-682):
storage_flood_stage_usage_percent / 100 * 0.9, or 0 when ignore_guard. -/
def guard_space (storage_flood_stage_usage_percent : ℚ) (ignore_guard : Bool) : ℚ :=
  if ignore_guard then 0 else storage_flood_stage_usage_percent / 100 * (9 / 10)

/-- Expire used for the trash subdirectory of one path
(storage_engine.cpp 716): forced to 0 when usage is over the guard space. -/
def trash_sweep_expire (curr_usage gspace : ℚ) (trash_expire : Int) : Int :=
  if curr_usage > gspace then 0 else trash_expire

/-- The per-path sweep of start_trash_sweep (storage_engine.cpp 707-721):
sweeps snapshot entries with the snapshot expire, and trash entries with
the possibly-forced-to-zero trash expire. -/
def sweep_one_path (local_now : Int) (curr_usage gspace : ℚ)
    (snapshot_expire trash_expire : Int)
    (snapshot_entries trash_entries : List SweepEntry) :
    (List SweepEntry × List SweepEntry) × (List SweepEntry × List SweepEntry) :=
  (do_sweep local_now snapshot_expire snapshot_entries,
   do_sweep local_now (trash_sweep_expire curr_usage gspace trash_expire) trash_entries)

/-! ## Unused-rowset garbage collection
    (StorageEngine::start_delete_unused_rowset, add_unused_rowset,
    add_quering_rowset, evict_querying_rowset; storage_engine.cpp lines
    1019-1068 and 1314-1331). -/

/-- An entry of the unused-rowset registry.  external_refs counts the
strong references held outside both the registry and the querying map
(for example by a running compaction); the querying map contribution is
derived from the querying list so that the pin is visible to the model. -/
structure UnusedRowset where
  rowset_id : Nat
  need_delete_file : Bool
  delayed_expired_timestamp : Int
  is_local : Bool
  external_refs : Nat
deriving DecidableEq

/-- The two registries relevant to the sweeper. -/
structure RowsetRegistries where
  unused_rowsets : List UnusedRowset
  querying_rowsets : List Nat
deriving DecidableEq

/-- The shared-pointer use count observed by the sweeper: the registry
copy itself, plus one for the querying map when present, plus any other
strong references. -/
def use_count (querying : List Nat) (rs : UnusedRowset) : Nat :=
  1 + (if rs.rowset_id ∈ querying then 1 else 0) + rs.external_refs

/-- StorageEngine::evict_querying_rowset (storage_engine.cpp 1328-1331). -/
def evict_querying_rowset (querying : List Nat) (rs_id : Nat) : List Nat :=
  querying.filter (fun x => ¬ x = rs_id)

/-- Selection test of the sweeper (storage_engine.cpp 1027-1029): only
referenced by the registry, flagged for deletion, and past its delay. -/
def gc_selected (querying : List Nat) (now : Int) (rs : UnusedRowset) : Prop :=
  use_count querying rs = 1 ∧ rs.need_delete_file = true ∧
    now > rs.delayed_expired_timestamp

instance (querying : List Nat) (now : Int) (rs : UnusedRowset) :
    Decidable (gc_selected querying now rs) := by
  unfold gc_selected
  infer_instance

/-- Loop of StorageEngine::start_delete_unused_rowset (storage_engine.cpp
1024-1039).  Returns (surviving registry entries, querying map after the
evictions, removal batch of local rowsets whose files get removed). -/
def delete_unused_loop (now : Int) :
    List UnusedRowset → List Nat → List UnusedRowset × List Nat × List UnusedRowset
  | [], q => ([], q, [])
  | rs :: rest, q =>
    if gc_selected q now rs then
      let q' := evict_querying_rowset q rs.rowset_id
      let r := delete_unused_loop now rest q'
      (r.1, r.2.1, if rs.is_local then rs :: r.2.2 else r.2.2)
    else
      let r := delete_unused_loop now rest q
      (rs :: r.1, r.2.1, r.2.2)

/-- StorageEngine::start_delete_unused_rowset: the state after the sweep
and the batch of local rowsets whose files are removed by rs.remove().
The C++ loop reads UnixSeconds() per iteration; a single now covers any
fixed instant of the sweep. -/
def start_delete_unused_rowset (now : Int) (st : RowsetRegistries) :
    RowsetRegistries × List UnusedRowset :=
  let r := delete_unused_loop now st.unused_rowsets st.querying_rowsets
  (⟨r.1, r.2.1⟩, r.2.2)

/-- StorageEngine::add_unused_rowset (storage_engine.cpp 1055-1068):
flags the rowset for deletion and inserts it, idempotent on duplicates. -/
def add_unused_rowset (st : RowsetRegistries) (rs : UnusedRowset) : RowsetRegistries :=
  if st.unused_rowsets.any (fun x => x.rowset_id = rs.rowset_id) then st
  else { st with unused_rowsets :=
          { rs with need_delete_file := true } :: st.unused_rowsets }

/-- StorageEngine::add_quering_rowset (storage_engine.cpp 1314-1317):
the querying map takes a strong reference. -/
def add_quering_rowset (st : RowsetRegistries) (rs_id : Nat) : RowsetRegistries :=
  if rs_id ∈ st.querying_rowsets then st
  else { st with querying_rowsets := rs_id :: st.querying_rowsets }

/-! ### Lemmas about the sweeper -/

lemma gc_selected_not_querying {querying : List Nat} {now : Int} {rs : UnusedRowset}
    (h : gc_selected querying now rs) : rs.rowset_id ∉ querying := by
  rcases h with ⟨hc, -, -⟩
  intro hq
  simp only [use_count, hq, if_pos] at hc
  omega

lemma evict_not_mem {q : List Nat} {x : Nat} (h : x ∉ q) :
    evict_querying_rowset q x = q := by
  unfold evict_querying_rowset
  rw [List.filter_eq_self]
  intro a ha
  simp only [decide_eq_true_eq]
  intro hax
  exact h (hax ▸ ha)

/-- The querying map is never changed by the sweep loop: selected entries
are not pinned, so their evictions remove nothing. -/
lemma delete_unused_loop_querying (now : Int) (l : List UnusedRowset) (q : List Nat) :
    (delete_unused_loop now l q).2.1 = q := by
  induction l generalizing q with
  | nil => rfl
  | cons rs rest ih =>
    by_cases hsel : gc_selected q now rs
    · have hq : evict_querying_rowset q rs.rowset_id = q :=
        evict_not_mem (gc_selected_not_querying hsel)
      simp [delete_unused_loop, hsel, hq, ih]
    · simp [delete_unused_loop, hsel, ih]

lemma delete_unused_loop_batch (now : Int) (l : List UnusedRowset) (q : List Nat)
    (rs : UnusedRowset) :
    rs ∈ (delete_unused_loop now l q).2.2 ↔
      rs ∈ l ∧ gc_selected q now rs ∧ rs.is_local = true := by
  induction l generalizing q with
  | nil => simp [delete_unused_loop]
  | cons a rest ih =>
    by_cases hsel : gc_selected q now a
    · have hq : evict_querying_rowset q a.rowset_id = q :=
        evict_not_mem (gc_selected_not_querying hsel)
      by_cases hloc : a.is_local = true
      · simp only [delete_unused_loop, if_pos hsel, hq, if_pos hloc,
          List.mem_cons, ih q]
        constructor
        · rintro (rfl | ⟨h1, h2, h3⟩)
          · exact ⟨Or.inl rfl, hsel, hloc⟩
          · exact ⟨Or.inr h1, h2, h3⟩
        · rintro ⟨rfl | h1, h2, h3⟩
          · exact Or.inl rfl
          · exact Or.inr ⟨h1, h2, h3⟩
      · simp only [delete_unused_loop, if_pos hsel, hq, if_neg hloc,
          List.mem_cons, ih q]
        constructor
        · rintro ⟨h1, h2, h3⟩
          exact ⟨Or.inr h1, h2, h3⟩
        · rintro ⟨rfl | h1, h2, h3⟩
          · exact absurd h3 hloc
          · exact ⟨h1, h2, h3⟩
    · simp only [delete_unused_loop, if_neg hsel, List.mem_cons, ih q]
      constructor
      · rintro ⟨h1, h2, h3⟩
        exact ⟨Or.inr h1, h2, h3⟩
      · rintro ⟨rfl | h1, h2, h3⟩
        · exact absurd h2 hsel
        · exact ⟨h1, h2, h3⟩

lemma delete_unused_loop_kept (now : Int) (l : List UnusedRowset) (q : List Nat)
    (rs : UnusedRowset) :
    rs ∈ (delete_unused_loop now l q).1 ↔
      rs ∈ l ∧ ¬ gc_selected q now rs := by
  induction l generalizing q with
  | nil => simp [delete_unused_loop]
  | cons a rest ih =>
    by_cases hsel : gc_selected q now a
    · have hq : evict_querying_rowset q a.rowset_id = q :=
        evict_not_mem (gc_selected_not_querying hsel)
      simp only [delete_unused_loop, if_pos hsel, hq, List.mem_cons, ih q]
      constructor
      · rintro ⟨h1, h2⟩
        exact ⟨Or.inr h1, h2⟩
      · rintro ⟨rfl | h1, h2⟩
        · exact absurd hsel h2
        · exact ⟨h1, h2⟩
    · simp only [delete_unused_loop, if_neg hsel, List.mem_cons, ih q]
      constructor
      · rintro (rfl | ⟨h1, h2⟩)
        · exact ⟨Or.inl rfl, hsel⟩
        · exact ⟨Or.inr h1, h2⟩
      · rintro ⟨rfl | h1, h2⟩
        · exact Or.inl rfl
        · exact Or.inr ⟨h1, h2⟩

/-! ### Claim theorems for the storage engine -/

/-- C7: start_delete_unused_rowset removes from the registry exactly the
entries with no outside strong reference, flagged need_delete_file, and
whose delayed_expired_timestamp is strictly in the past; it deletes the
files of exactly the local ones among those; consequently an entry whose
rowset id is pinned by the querying-rowset registry is never selected,
keeps its registry entry, and its files are not deleted. -/
theorem start_delete_unused_rowset_spec (now : Int) (st : RowsetRegistries)
    (rs : UnusedRowset) (hmem : rs ∈ st.unused_rowsets) :
    (rs ∈ (start_delete_unused_rowset now st).2 ↔
      (gc_selected st.querying_rowsets now rs ∧ rs.is_local = true)) ∧
    (rs ∈ (start_delete_unused_rowset now st).1.unused_rowsets ↔
      ¬ gc_selected st.querying_rowsets now rs) ∧
    (rs.rowset_id ∈ st.querying_rowsets →
      rs ∈ (start_delete_unused_rowset now st).1.unused_rowsets ∧
      rs ∉ (start_delete_unused_rowset now st).2) := by
  unfold start_delete_unused_rowset
  refine ⟨?_, ?_, ?_⟩
  · rw [delete_unused_loop_batch]
    constructor
    · rintro ⟨-, h2, h3⟩
      exact ⟨h2, h3⟩
    · rintro ⟨h2, h3⟩
      exact ⟨hmem, h2, h3⟩
  · rw [delete_unused_loop_kept]
    constructor
    · rintro ⟨-, h2⟩
      exact h2
    · intro h2
      exact ⟨hmem, h2⟩
  · intro hq
    have hnsel : ¬ gc_selected st.querying_rowsets now rs := by
      intro hsel
      exact gc_selected_not_querying hsel hq
    constructor
    · exact (delete_unused_loop_kept now _ _ rs).mpr ⟨hmem, hnsel⟩
    · intro hbad
      rcases (delete_unused_loop_batch now _ _ rs).mp hbad with ⟨-, h2, -⟩
      exact hnsel h2

/-- Witness for C7 at a concrete state: one pinned rowset survives, one
unpinned expired rowset is removed and its files deleted. -/
theorem start_delete_unused_rowset_spec_witness :
    (⟨5, true, 10, true, 0⟩ : UnusedRowset) ∈
        (⟨[⟨5, true, 10, true, 0⟩, ⟨7, true, 10, true, 0⟩], [5]⟩ : RowsetRegistries).unused_rowsets ∧
    (⟨5, true, 10, true, 0⟩ : UnusedRowset) ∈
        (start_delete_unused_rowset 11 ⟨[⟨5, true, 10, true, 0⟩, ⟨7, true, 10, true, 0⟩], [5]⟩).1.unused_rowsets ∧
    (⟨5, true, 10, true, 0⟩ : UnusedRowset) ∉
        (start_delete_unused_rowset 11 ⟨[⟨5, true, 10, true, 0⟩, ⟨7, true, 10, true, 0⟩], [5]⟩).2 := by
  have h := start_delete_unused_rowset_spec 11
      ⟨[⟨5, true, 10, true, 0⟩, ⟨7, true, 10, true, 0⟩], [5]⟩
      ⟨5, true, 10, true, 0⟩ (by decide)
  exact ⟨by decide, (h.2.2 (by decide)).1, (h.2.2 (by decide)).2⟩

/-- C8 counterexample: with entries in filename order, an expired entry
that follows a not-yet-expired entry is retained, because _do_sweep
stops at the first non-expired entry.  Here the older entry has a large
embedded TTL and the newer one TTL 0. -/
theorem do_sweep_retains_expired_entry :
    (entry_expired 1704110470 3600 ⟨1704110460, some 0⟩ = true) ∧
    (⟨1704110460, some 0⟩ : SweepEntry) ∉
      (do_sweep 1704110470 3600 [⟨1704110400, some 1000⟩, ⟨1704110460, some 0⟩]).1 ∧
    (⟨1704110460, some 0⟩ : SweepEntry) ∈
      (do_sweep 1704110470 3600 [⟨1704110400, some 1000⟩, ⟨1704110460, some 0⟩]).2 := by
  decide

/-- C8 (amended): the sweep deletes exactly the maximal prefix of expired
entries in filename order, keeps everything from the first non-expired
entry on, the effective TTL of an entry is the filename-embedded one when
present else the global one, and the trash sweep of a path whose usage
exceeds storage_flood_stage_usage_percent / 100 * 0.9 runs with TTL 0. -/
theorem do_sweep_spec (local_now expire : Int) (entries : List SweepEntry) :
    (do_sweep local_now expire entries =
      (entries.takeWhile (entry_expired local_now expire),
       entries.dropWhile (entry_expired local_now expire))) ∧
    (∀ e : SweepEntry, ∀ t, e.embedded_expire = some t → actual_expire expire e = t) ∧
    (∀ e : SweepEntry, e.embedded_expire = none → actual_expire expire e = expire) ∧
    (∀ curr_usage p te, curr_usage > guard_space p false →
      trash_sweep_expire curr_usage (guard_space p false) te = 0) ∧
    (∀ curr_usage p te, ¬ curr_usage > guard_space p false →
      trash_sweep_expire curr_usage (guard_space p false) te = te) := by
  refine ⟨?_, ?_, ?_, ?_, ?_⟩
  · induction entries with
    | nil => rfl
    | cons e rest ih =>
      by_cases h : entry_expired local_now expire e
      · simp [do_sweep, h, ih, List.takeWhile_cons, List.dropWhile_cons]
      · simp [do_sweep, h, List.takeWhile_cons, List.dropWhile_cons]
  · intro e t h
    simp [actual_expire, h]
  · intro e h
    simp [actual_expire, h]
  · intro u p te h
    simp [trash_sweep_expire, h]
  · intro u p te h
    simp [trash_sweep_expire, h]

/-- Witness for C8 amended at a concrete sweep: two expired entries are
deleted, the first fresh entry stops the scan. -/
theorem do_sweep_spec_witness :
    do_sweep 100 10 [⟨0, none⟩, ⟨50, some 20⟩, ⟨95, none⟩, ⟨10, some 1000⟩] =
      ([⟨0, none⟩, ⟨50, some 20⟩], [⟨95, none⟩, ⟨10, some 1000⟩]) := by
  have h := (do_sweep_spec 100 10 [⟨0, none⟩, ⟨50, some 20⟩, ⟨95, none⟩, ⟨10, some 1000⟩]).1
  rw [h]
  decide

/-- C9 counterexample: after _get_and_set_next_disk_index the per-medium
last_use_index holds curr_index, not curr_index + 1 as claimed.  Concrete
run: empty cache, last_use_index 0, so curr_index = 1, after which
last_use_index hdd = 1 while the claim demands 2. -/
theorem get_and_set_next_disk_index_counterexample :
    ((get_and_set_next_disk_index ⟨⟨[]⟩, fun _ => 0⟩ 7 StorageMedium.hdd).2.last_use_index
        StorageMedium.hdd ≠
      (get_and_set_next_disk_index ⟨⟨[]⟩, fun _ => 0⟩ 7 StorageMedium.hdd).1 + 1) := by
  decide

/-- C9 (amended): curr_index is the stored LRU value on a hit and
max(0, last_use_index + 1) on a miss; after the call the LRU entry for
the key holds max(0, curr_index + 1) while last_use_index for the medium
holds curr_index itself (so on a miss both structures advance, but the
two stored values differ by one). -/
theorem get_and_set_next_disk_index_spec (s : DiskIndexState) (pid : Int)
    (m : StorageMedium) :
    ((get_and_set_next_disk_index s pid m).1 =
      (if s.create_tablet_idx_lru_cache.get_index (pid, m) = -1
       then max 0 (s.last_use_index m + 1)
       else s.create_tablet_idx_lru_cache.get_index (pid, m))) ∧
    ((get_and_set_next_disk_index s pid m).2.create_tablet_idx_lru_cache.get_index (pid, m) =
      max 0 ((get_and_set_next_disk_index s pid m).1 + 1)) ∧
    ((get_and_set_next_disk_index s pid m).2.last_use_index m =
      (get_and_set_next_disk_index s pid m).1) := by
  refine ⟨rfl, ?_, ?_⟩
  · simp [get_and_set_next_disk_index, CreateTabletIdxCache.set_index,
      CreateTabletIdxCache.get_index]
  · simp [get_and_set_next_disk_index]

/-! ## Per-database transaction manager: data model
    (DatabaseTransactionMgr).  The source keeps running and final
    transactions in two maps whose membership is determined by status
    finality and kept in step by unprotectUpsertTransactionState; the
    model keeps one list keyed by transaction id, from which the running
    set is the non-final filter.  Java mutates TransactionState objects
    shared by the maps; the model writes the changed record back. -/

/-- Transaction status (TransactionStatus). -/
inductive TransactionStatus
  | PREPARE
  | PRECOMMITTED
  | COMMITTED
  | VISIBLE
  | ABORTED
deriving DecidableEq

/-- TransactionStatus.isFinalStatus: VISIBLE and ABORTED are final. -/
def TransactionStatus.isFinalStatus : TransactionStatus → Bool
  | .VISIBLE => true
  | .ABORTED => true
  | _ => false

/-- Replica state; only ALTER is distinguished by the publish check. -/
inductive ReplicaState
  | NORMAL
  | ALTER
  | CLONE
deriving DecidableEq

/-- A replica of a tablet on one backend. -/
structure Replica where
  rid : Nat
  backend_id : Nat
  version : Int
  last_failed_version : Int
  last_success_version : Int
  rstate : ReplicaState
deriving DecidableEq

/-- Modelled from the spec: Replica.checkVersionCatchUp is not part of
the source excerpt; per the spec (4.11 version-continuous, and testable
property 3 which counts replicas whose version has reached the target),
a replica is caught up to v exactly when its version is at least v. -/
def Replica.checkVersionCatchUp (r : Replica) (v : Int) : Bool :=
  decide (r.version ≥ v)

/-- A tablet.  backends models Tablet.getBackendIds(); getReplica models
the tablet inverted index lookup, which can miss a listed backend. -/
structure TabletM where
  tablet_id : Nat
  backends : List Nat
  replicas : List Replica
deriving DecidableEq

def TabletM.getReplica (t : TabletM) (b : Nat) : Option Replica :=
  t.replicas.find? (fun r => r.backend_id = b)

structure MaterializedIndexM where
  index_id : Nat
  tablets : List TabletM
deriving DecidableEq

/-- A partition.  load_required_replica_num models
table.getLoadRequiredReplicaNum(partition id). -/
structure PartitionM where
  partition_id : Int
  visible_version : Int
  next_version : Int
  load_required_replica_num : Nat
  indices : List MaterializedIndexM
deriving DecidableEq

inductive OlapTableState
  | NORMAL
  | ROLLUP
  | SCHEMA_CHANGE
  | RESTORE
deriving DecidableEq

structure TableM where
  table_id : Int
  tstate : OlapTableState
  partitions : List PartitionM
deriving DecidableEq

structure DbM where
  tables : List TableM
deriving DecidableEq

def DbM.getTable (db : DbM) (tid : Int) : Option TableM :=
  db.tables.find? (fun t => t.table_id = tid)

def TableM.getPartition (t : TableM) (pid : Int) : Option PartitionM :=
  t.partitions.find? (fun p => p.partition_id = pid)

/-- A finished publish-version task report from one backend.  New
backends report succ_tablets; legacy backends report only error_tablets. -/
structure PublishVersionTask where
  finished : Bool
  succ_tablets : Option (List Nat)
  error_tablets : Option (List Nat)
deriving DecidableEq

structure PartitionCommitInfo where
  partition_id : Int
  version : Int
deriving DecidableEq

structure TableCommitInfo where
  table_id : Int
  partition_commit_infos : List PartitionCommitInfo
deriving DecidableEq

/-- Structured stand-in for the formatted error strings the manager
stores on a transaction via setErrorMsg. -/
inductive TxnErrMsg
  | waitForPublishing (partition_id : Int) (wait_version : Int)
  | publishFailed (tablet_id : Nat) (succ_num required : Nat)
deriving DecidableEq

/-- The per-load TransactionState; only fields the modelled operations
read or write are kept.  routine_load stands for source type
ROUTINE_LOAD_TASK; publish task placeholders added at commit map a
backend id to none. -/
structure TransactionState where
  transaction_id : Nat
  label : String
  request_id : Option Nat
  routine_load : Bool
  status : TransactionStatus
  table_id_list : List Int
  loaded_tbl_indexes : List (Int × List Nat)
  table_commit_infos : List TableCommitInfo
  error_replicas : List Nat
  publish_tasks : List (Nat × Option PublishVersionTask)
  first_publish_version_time : Int
  err_msg : Option TxnErrMsg
deriving DecidableEq

/-- The per-database manager state: the transaction map, the label
index, and the monotonic id generator. -/
structure MgrState where
  txns : List TransactionState
  label_to_txn_ids : List (String × List Nat)
  next_txn_id : Nat
deriving DecidableEq

/-! ### Map helpers -/

/-- Lookup by transaction id across running and final states
(unprotectedGetTransactionState). -/
def lookupTxn (l : List TransactionState) (tid : Nat) : Option TransactionState :=
  l.find? (fun t => t.transaction_id = tid)

/-- Map put keyed by transaction id. -/
def upsertTxnList : List TransactionState → TransactionState → List TransactionState
  | [], t => [t]
  | x :: xs, t =>
    if x.transaction_id = t.transaction_id then t :: xs else x :: upsertTxnList xs t

/-- unprotectedGetTxnIdsByLabel, with the absent label as the empty set. -/
def lookupLabelIds (idx : List (String × List Nat)) (lab : String) : List Nat :=
  match idx.find? (fun e => e.1 = lab) with
  | some e => e.2
  | none => []

/-- updateTxnLabels: add the id to the label entry set. -/
def addLabelId : List (String × List Nat) → String → Nat → List (String × List Nat)
  | [], lab, tid => [(lab, [tid])]
  | e :: rest, lab, tid =>
    if e.1 = lab then (e.1, if tid ∈ e.2 then e.2 else tid :: e.2) :: rest
    else e :: addLabelId rest lab tid

/-- Label cleanup in clearTransactionState: remove the id from the
label entry, dropping the entry once empty. -/
def removeLabelId : List (String × List Nat) → String → Nat → List (String × List Nat)
  | [], _, _ => []
  | e :: rest, lab, tid =>
    if e.1 = lab then
      let ids := e.2.filter (fun x => x != tid)
      if ids.isEmpty then rest else (e.1, ids) :: rest
    else e :: removeLabelId rest lab tid

/-- unprotectUpsertTransactionState: store the state under its id and
index its label (edit-log write and the running counters are derived
data in this model). -/
def unprotectUpsertTransactionState (s : MgrState) (t : TransactionState) : MgrState :=
  { s with txns := upsertTxnList s.txns t,
           label_to_txn_ids := addLabelId s.label_to_txn_ids t.label t.transaction_id }

/-- Write back an in-place mutation of a transaction object that the
source performs without an upsert (the maps alias the object). -/
def mutateTxn (s : MgrState) (t : TransactionState) : MgrState :=
  { s with txns := upsertTxnList s.txns t }

/-- Count of running non-routine-load transactions (the runningTxnNums
counter that unprotectUpsertTransactionState maintains). -/
def runningTxnNums (s : MgrState) : Nat :=
  (s.txns.filter (fun t => !t.status.isFinalStatus && !t.routine_load)).length

/-! ### beginTransaction -/

inductive BeginError
  | duplicatedRequest (existing_txn_id : Nat)
  | labelAlreadyUsed
  | illegalState
  | internalNullTxn
  | beginLimitExceeded
deriving DecidableEq

/-- Fetch the states of the given ids; none models the
Preconditions.checkNotNull failure on an untracked id. -/
def collectTxns (s : MgrState) : List Nat → Option (List TransactionState)
  | [] => some []
  | tid :: rest =>
    match lookupTxn s.txns tid, collectTxns s rest with
    | some t, some ts => some (t :: ts)
    | _, _ => none

/-- DatabaseTransactionMgr.beginTransaction (lines 370-434): label reuse
check, retry detection by request id, running-transaction quota, id
allocation and insertion of the PREPARE state.  The label format and
database quota checks that precede the lock are outside the model.
Returns the allocated id or the error, together with the state (which
is unchanged whenever an error is returned). -/
def beginTransaction (s : MgrState) (table_id_list : List Int) (label : String)
    (request_id : Option Nat) (routine_load : Bool) (txn_quota : Nat) :
    Except BeginError Nat × MgrState :=
  match collectTxns s (lookupLabelIds s.label_to_txn_ids label) with
  | none => (.error .internalNullTxn, s)
  | some ts =>
    let notAborted := ts.filter (fun t => !(t.status == .ABORTED))
    if 1 < notAborted.length then (.error .illegalState, s)
    else
      match notAborted with
      | t :: _ =>
        if (t.status = .PREPARE ∨ t.status = .PRECOMMITTED) ∧
            request_id.isSome ∧ t.request_id = request_id then
          (.error (.duplicatedRequest t.transaction_id), s)
        else (.error .labelAlreadyUsed, s)
      | [] =>
        if ¬ routine_load ∧ txn_quota ≤ runningTxnNums s then
          (.error .beginLimitExceeded, s)
        else
          let tid := s.next_txn_id
          let t : TransactionState :=
            { transaction_id := tid, label := label, request_id := request_id,
              routine_load := routine_load, status := .PREPARE,
              table_id_list := table_id_list, loaded_tbl_indexes := [],
              table_commit_infos := [], error_replicas := [],
              publish_tasks := [], first_publish_version_time := -1,
              err_msg := none }
          (.ok tid, unprotectUpsertTransactionState { s with next_txn_id := tid + 1 } t)

/-! ### abortTransaction -/

inductive AbortError
  | transactionNotFound
  | alreadyAborted
  | cannotAbortFinished
deriving DecidableEq

/-- DatabaseTransactionMgr.abortTransaction (lines 1499-1543) with
unprotectAbortTransaction (1586-1606): only a running PREPARE or
PRECOMMITTED transaction can be aborted; the lookup goes through the
running map, so a final transaction reports not-found. -/
def abortTransaction (s : MgrState) (transaction_id : Nat) : Except AbortError MgrState :=
  match lookupTxn s.txns transaction_id with
  | none => .error .transactionNotFound
  | some txn =>
    if txn.status.isFinalStatus then .error .transactionNotFound
    else if txn.status = .ABORTED then .error .alreadyAborted
    else if txn.status = .COMMITTED ∨ txn.status = .VISIBLE then .error .cannotAbortFinished
    else .ok (unprotectUpsertTransactionState s { txn with status := .ABORTED })

/-! ### Claim C6: begin on a label with an existing non-aborted transaction -/

/-- The retry condition of beginTransaction: same non-null request id
against a PREPARE or PRECOMMITTED transaction. -/
def beginRetryCond (request_id : Option Nat) (t : TransactionState) : Prop :=
  (t.status = .PREPARE ∨ t.status = .PRECOMMITTED) ∧
    request_id.isSome ∧ t.request_id = request_id

instance (request_id : Option Nat) (t : TransactionState) :
    Decidable (beginRetryCond request_id t) := by
  unfold beginRetryCond
  infer_instance

/-- C6: when a non-aborted transaction already holds the label, begin
returns the DUPLICATED_REQUEST outcome carrying the existing id exactly
when the retry condition holds, and fails with label-already-used
otherwise; in both cases the state (so every transaction index) is
returned unchanged and no transaction is created. -/
theorem beginTransaction_label_reuse (s : MgrState) (table_id_list : List Int)
    (label : String) (request_id : Option Nat) (routine_load : Bool) (txn_quota : Nat)
    (t : TransactionState) (ts : List TransactionState)
    (hcollect : collectTxns s (lookupLabelIds s.label_to_txn_ids label) = some ts)
    (hone : ts.filter (fun t => !(t.status == .ABORTED)) = [t]) :
    beginTransaction s table_id_list label request_id routine_load txn_quota =
      (if beginRetryCond request_id t
       then (.error (.duplicatedRequest t.transaction_id), s)
       else (.error .labelAlreadyUsed, s)) := by
  unfold beginTransaction
  rw [hcollect]
  simp only [hone, List.length_cons, List.length_nil]
  rw [if_neg (by omega)]
  rfl

/-- Concrete transaction for the C6 witness. -/
def c6Txn : TransactionState :=
  { transaction_id := 100, label := "L1", request_id := some 9,
    routine_load := false, status := .PREPARE, table_id_list := [],
    loaded_tbl_indexes := [], table_commit_infos := [], error_replicas := [],
    publish_tasks := [], first_publish_version_time := -1, err_msg := none }

/-- Concrete manager state for the C6 witness. -/
def c6State : MgrState := ⟨[c6Txn], [("L1", [100])], 101⟩

/-- Witness for C6: a PREPARE transaction with request id 9 under label
L1; the same request id is told the existing id 100, a different one is
refused, and the state comes back unchanged both times. -/
theorem beginTransaction_label_reuse_witness :
    beginTransaction c6State [] "L1" (some 9) false 10 =
      (.error (.duplicatedRequest 100), c6State) ∧
    beginTransaction c6State [] "L1" (some 8) false 10 =
      (.error .labelAlreadyUsed, c6State) := by
  have h1 := beginTransaction_label_reuse c6State [] "L1" (some 9) false 10
    c6Txn [c6Txn] (by decide) (by decide)
  have h2 := beginTransaction_label_reuse c6State [] "L1" (some 8) false 10
    c6Txn [c6Txn] (by decide) (by decide)
  rw [h1, h2]
  constructor
  · rw [if_pos (by decide)]
    rfl
  · rw [if_neg (by decide)]

/-! ### checkCommitStatus (DatabaseTransactionMgr lines 499-662) -/

/-- A reported (tablet, backend) commit info. -/
structure TabletCommitInfo where
  tablet_id : Nat
  backend_id : Nat
deriving DecidableEq

/-- The tablet inverted index record for a tablet. -/
structure TabletMetaM where
  table_id : Int
  partition_id : Int
deriving DecidableEq

inductive CommitError
  | transactionNotFound
  | alreadyAborted
  | visibleNotPreCommitted
  | committedNotPreCommitted
  | prepareNotPreCommitted
  | loadTableInRestore (table_id : Int)
  | replicaNotFound (tablet_id backend_id : Nat)
  | tabletQuorumFailed (tablet_id : Nat)
  | tableMetaNotFound (table_id : Int)
deriving DecidableEq

/-- Add a partition id to the set kept per table id. -/
def addToPartitionSet : List (Int × List Int) → Int → Int → List (Int × List Int)
  | [], k, v => [(k, [v])]
  | e :: rest, k, v =>
    if e.1 = k then (e.1, if v ∈ e.2 then e.2 else e.2 ++ [v]) :: rest
    else e :: addToPartitionSet rest k v

/-- Add a backend id to the set kept per tablet id. -/
def addToBackendSet : List (Nat × List Nat) → Nat → Nat → List (Nat × List Nat)
  | [], k, v => [(k, [v])]
  | e :: rest, k, v =>
    if e.1 = k then (e.1, if v ∈ e.2 then e.2 else e.2 ++ [v]) :: rest
    else e :: addToBackendSet rest k v

structure CommitMaps where
  table_to_partition : List (Int × List Int)
  tablet_to_backends : List (Nat × List Nat)
deriving DecidableEq

/-- Pre-pass of checkCommitStatus (lines 523-560): resolve each reported
tablet through the inverted index, skip dropped tablets, tables and
partitions, refuse tables in RESTORE, and build the two maps. -/
def buildCommitMaps (db : DbM) (table_ids : List Int) (inv : List (Nat × TabletMetaM)) :
    List TabletCommitInfo → CommitMaps → Except CommitError CommitMaps
  | [], acc => .ok acc
  | ci :: rest, acc =>
    match inv.find? (fun e => e.1 = ci.tablet_id) with
    | none => buildCommitMaps db table_ids inv rest acc
    | some e =>
      match (if e.2.table_id ∈ table_ids then db.getTable e.2.table_id else none) with
      | none => buildCommitMaps db table_ids inv rest acc
      | some tbl =>
        if tbl.tstate = .RESTORE then .error (.loadTableInRestore tbl.table_id)
        else
          match tbl.getPartition e.2.partition_id with
          | none => buildCommitMaps db table_ids inv rest acc
          | some _ =>
            buildCommitMaps db table_ids inv rest
              ⟨addToPartitionSet acc.table_to_partition e.2.table_id e.2.partition_id,
               addToBackendSet acc.tablet_to_backends ci.tablet_id ci.backend_id⟩

inductive ReplicaCommitClass
  | succ
  | versionFailed
  | writeFailed
deriving DecidableEq

/-- Replica classification of the commit check (lines 627-640): in the
commit backends without prior failure is success; in the commit backends
with a prior failure is version-failed; not reported (including a tablet
with no commit backends at all) is write-failed. -/
def classifyCommitReplica (commit_backends : Option (List Nat)) (backend : Nat)
    (r : Replica) : ReplicaCommitClass :=
  match commit_backends with
  | some cbs =>
    if backend ∈ cbs then
      if r.last_failed_version < 0 then .succ else .versionFailed
    else .writeFailed
  | none => .writeFailed

/-- errorReplicaIds is a set: add if absent. -/
def addErrId (errs : List Nat) (i : Nat) : List Nat :=
  if i ∈ errs then errs else i :: errs

/-- Inner backend loop of the commit check (lines 617-641): look up each
replica (a missing one fails the commit) and classify it, collecting the
success, write-failed and version-failed replica lists in order. -/
def classifyTabletLoop (tablet : TabletM) (commit_backends : Option (List Nat)) :
    List Nat → Except CommitError (List Replica × List Replica × List Replica)
  | [] => .ok ([], [], [])
  | b :: bs =>
    match tablet.getReplica b with
    | none => .error (.replicaNotFound tablet.tablet_id b)
    | some r =>
      match classifyTabletLoop tablet commit_backends bs with
      | .error e => .error e
      | .ok (su, wf, vf) =>
        match classifyCommitReplica commit_backends b r with
        | .succ => .ok (r :: su, wf, vf)
        | .writeFailed => .ok (su, r :: wf, vf)
        | .versionFailed => .ok (su, wf, r :: vf)

structure CommitAcc where
  error_replica_ids : List Nat
  involved_backends : List Nat
deriving DecidableEq

/-- totalInvolvedBackends.addAll. -/
def addInvolved (l : List Nat) (bs : List Nat) : List Nat :=
  bs.foldl (fun acc b => if b ∈ acc then acc else acc ++ [b]) l

def commitBackendsOf (tablet_to_backends : List (Nat × List Nat)) (t : TabletM) :
    Option (List Nat) :=
  (tablet_to_backends.find? (fun e => e.1 = t.tablet_id)).map (fun e => e.2)

/-- One tablet of the commit check (lines 607-658): classify the
replicas, record write-failed replica ids in errorReplicaIds, and fail
with the quorum exception when fewer than load_required succeeded. -/
def checkOneTabletCommit (load_required : Nat) (tablet_to_backends : List (Nat × List Nat))
    (acc : CommitAcc) (tablet : TabletM) : Except CommitError CommitAcc :=
  match classifyTabletLoop tablet (commitBackendsOf tablet_to_backends tablet) tablet.backends with
  | .error e => .error e
  | .ok (su, wf, _) =>
    let errs := wf.foldl (fun es r => addErrId es r.rid) acc.error_replica_ids
    if su.length < load_required then .error (.tabletQuorumFailed tablet.tablet_id)
    else .ok ⟨errs, addInvolved acc.involved_backends tablet.backends⟩

/-- The materialized indices the transaction loaded: all of them when it
declared none, else the declared subset (lines 572-583). -/
def allIndicesOf (loaded : List (Int × List Nat)) (table_id : Int) (p : PartitionM) :
    List MaterializedIndexM :=
  if loaded.isEmpty then p.indices
  else
    match loaded.find? (fun e => e.1 = table_id) with
    | some e => e.2.filterMap (fun iid => p.indices.find? (fun idx => idx.index_id = iid))
    | none => []

/-- All tablets of the loaded indices of one partition, in index order. -/
def partitionTablets (loaded : List (Int × List Nat)) (table_id : Int) (p : PartitionM) :
    List TabletM :=
  ((allIndicesOf loaded table_id p).map (fun idx => idx.tablets)).flatten

def checkTabletsFold (load_required : Nat) (t2b : List (Nat × List Nat)) :
    List TabletM → CommitAcc → Except CommitError CommitAcc
  | [], acc => .ok acc
  | t :: ts, acc =>
    match checkOneTabletCommit load_required t2b acc t with
    | .error e => .error e
    | .ok acc' => checkTabletsFold load_required t2b ts acc'

def checkPartitionsOfTableCommit (loaded : List (Int × List Nat))
    (t2b : List (Nat × List Nat)) (table : TableM) (pids : List Int) :
    List PartitionM → CommitAcc → Except CommitError CommitAcc
  | [], acc => .ok acc
  | p :: ps, acc =>
    if p.partition_id ∈ pids then
      match checkTabletsFold p.load_required_replica_num t2b
          (partitionTablets loaded table.table_id p) acc with
      | .error e => .error e
      | .ok acc' => checkPartitionsOfTableCommit loaded t2b table pids ps acc'
    else checkPartitionsOfTableCommit loaded t2b table pids ps acc

def checkTablesFold (db : DbM) (loaded : List (Int × List Nat))
    (t2b : List (Nat × List Nat)) :
    List (Int × List Int) → CommitAcc → Except CommitError CommitAcc
  | [], acc => .ok acc
  | e :: rest, acc =>
    match db.getTable e.1 with
    | none => .error (.tableMetaNotFound e.1)
    | some table =>
      match checkPartitionsOfTableCommit loaded t2b table e.2 table.partitions acc with
      | .error er => .error er
      | .ok acc' => checkTablesFold db loaded t2b rest acc'

/-- DatabaseTransactionMgr.checkCommitStatus.  The publish-timeout
prolongation for tables under ROLLUP or SCHEMA_CHANGE only stretches a
task deadline and is not modelled. -/
def checkCommitStatus (db : DbM) (table_ids : List Int) (txn : TransactionState)
    (infos : List TabletCommitInfo) (inv : List (Nat × TabletMetaM)) :
    Except CommitError (CommitMaps × CommitAcc) :=
  match buildCommitMaps db table_ids inv infos ⟨[], []⟩ with
  | .error e => .error e
  | .ok maps =>
    match checkTablesFold db txn.loaded_tbl_indexes maps.tablet_to_backends
        maps.table_to_partition ⟨[], []⟩ with
    | .error e => .error e
    | .ok acc => .ok (maps, acc)

/-! ### commitTransaction (lines 699-810) and catalog updates -/

/-- Per-partition commit infos of a 1-phase commit: each partition is
assigned its current next_version (lines 1363-1380). -/
def buildTableCommitInfos (db : DbM) (t2p : List (Int × List Int)) : List TableCommitInfo :=
  t2p.map (fun e =>
    ⟨e.1, e.2.filterMap (fun pid =>
      ((db.getTable e.1).bind (fun t => t.getPartition pid)).map
        (fun p => (⟨pid, p.next_version⟩ : PartitionCommitInfo)))⟩)

/-- unprotectedCommitTransaction (lines 1348-1389): a no-op unless the
state is still PREPARE; otherwise records COMMITTED, the error replicas,
the commit infos and the publish-task placeholders, and upserts. -/
def unprotectedCommitTransaction (s : MgrState) (db : DbM) (txn : TransactionState)
    (errs : List Nat) (t2p : List (Int × List Int)) (involved : List Nat) :
    MgrState × TransactionState :=
  if txn.status ≠ .PREPARE then (s, txn)
  else
    let txn' := { txn with
      status := .COMMITTED, error_replicas := errs,
      table_commit_infos := buildTableCommitInfos db t2p,
      publish_tasks := involved.map (fun b => (b, none)) }
    (unprotectUpsertTransactionState s txn', txn')

def mapTabletsOfPartition (f : Replica → Replica) (p : PartitionM) : PartitionM :=
  { p with indices := p.indices.map (fun idx =>
      { idx with tablets := idx.tablets.map (fun t =>
          { t with replicas := t.replicas.map f }) }) }

def DbM.modifyPartition (db : DbM) (table_id : Int) (partition_id : Int)
    (f : PartitionM → PartitionM) : DbM :=
  ⟨db.tables.map (fun t =>
    if t.table_id = table_id then
      { t with partitions := t.partitions.map (fun p =>
          if p.partition_id = partition_id then f p else p) }
    else t)⟩

/-- updateCatalogAfterCommitted (lines 1868-1925): raise the last failed
version of each error replica to the partition commit version (modelled
from the spec: Replica.updateLastFailedVersion writes the field) and
bump each partition's next_version; dropped tables and partitions are
skipped. -/
def updateCatalogAfterCommitted (txn : TransactionState) (db : DbM) : DbM :=
  txn.table_commit_infos.foldl (fun db1 tci =>
    tci.partition_commit_infos.foldl (fun db2 pci =>
      match (db2.getTable tci.table_id).bind (fun t => t.getPartition pci.partition_id) with
      | none => db2
      | some _ =>
        db2.modifyPartition tci.table_id pci.partition_id (fun p =>
          let p1 := mapTabletsOfPartition (fun r =>
            if r.rid ∈ txn.error_replicas
            then { r with last_failed_version := pci.version } else r) p
          { p1 with next_version := p1.next_version + 1 })) db1) db

/-- Version settling of unprotectedCommitTransaction2PC (lines 1402-1433):
drop commit infos of dropped tables and partitions, assign surviving
partitions their current next_version. -/
def settle2PCCommitInfos (db : DbM) (infos : List TableCommitInfo) : List TableCommitInfo :=
  infos.filterMap (fun tci =>
    (db.getTable tci.table_id).map (fun table =>
      (⟨tci.table_id,
        tci.partition_commit_infos.filterMap (fun pci =>
          (table.getPartition pci.partition_id).map
            (fun p => (⟨pci.partition_id, p.next_version⟩ : PartitionCommitInfo)))⟩ :
        TableCommitInfo)))

/-- unprotectedCommitTransaction2PC (lines 1391-1436): a no-op warning
unless PRECOMMITTED; otherwise set COMMITTED and settle the versions.
The source mutates the shared object without an upsert. -/
def unprotectedCommitTransaction2PC (s : MgrState) (db : DbM) (txn : TransactionState) :
    MgrState × TransactionState :=
  if txn.status ≠ .PRECOMMITTED then (s, txn)
  else
    let txn' := { txn with
      status := .COMMITTED,
      table_commit_infos := settle2PCCommitInfos db txn.table_commit_infos }
    (mutateTxn s txn', txn')

/-- DatabaseTransactionMgr.commitTransaction (lines 699-810): status
dispatch, the commit check for 1-phase commits, the state transform and
the catalog update.  The partial-update schema compatibility check is
outside the model (no partial updates are modelled). -/
def commitTransaction (s : MgrState) (db : DbM) (table_ids : List Int)
    (transaction_id : Nat) (infos : List TabletCommitInfo)
    (inv : List (Nat × TabletMetaM)) (is2PC : Bool) :
    Except CommitError (MgrState × DbM) :=
  match lookupTxn s.txns transaction_id with
  | none => .error .transactionNotFound
  | some txn =>
    if txn.status = .ABORTED then .error .alreadyAborted
    else if txn.status = .VISIBLE then
      if is2PC then .error .visibleNotPreCommitted else .ok (s, db)
    else if txn.status = .COMMITTED then
      if is2PC then .error .committedNotPreCommitted else .ok (s, db)
    else if is2PC ∧ txn.status = .PREPARE then .error .prepareNotPreCommitted
    else if is2PC then
      let r := unprotectedCommitTransaction2PC s db txn
      .ok (r.1, updateCatalogAfterCommitted r.2 db)
    else
      match checkCommitStatus db table_ids txn infos inv with
      | .error e => .error e
      | .ok (maps, acc) =>
        let r := unprotectedCommitTransaction s db txn acc.error_replica_ids
            maps.table_to_partition acc.involved_backends
        .ok (r.1, updateCatalogAfterCommitted r.2 db)

/-- Pre-commit infos carry the sentinel version -1 (line 1333). -/
def buildPreCommitInfos (t2p : List (Int × List Int)) : List TableCommitInfo :=
  t2p.map (fun e =>
    ⟨e.1, e.2.map (fun pid => (⟨pid, -1⟩ : PartitionCommitInfo))⟩)

/-- DatabaseTransactionMgr.preCommitTransaction2PC (lines 453-497) with
unprotectedPreCommitTransaction2PC (1312-1346). -/
def preCommitTransaction2PC (s : MgrState) (db : DbM) (table_ids : List Int)
    (transaction_id : Nat) (infos : List TabletCommitInfo)
    (inv : List (Nat × TabletMetaM)) : Except CommitError MgrState :=
  match lookupTxn s.txns transaction_id with
  | none => .error .transactionNotFound
  | some txn =>
    if txn.status = .ABORTED then .error .alreadyAborted
    else if txn.status = .VISIBLE then .error .visibleNotPreCommitted
    else if txn.status = .COMMITTED then .error .committedNotPreCommitted
    else if txn.status = .PRECOMMITTED then .ok s
    else
      match checkCommitStatus db table_ids txn infos inv with
      | .error e => .error e
      | .ok (maps, acc) =>
        if txn.status ≠ .PREPARE then .ok s
        else
          let txn' := { txn with
            status := .PRECOMMITTED,
            error_replicas := acc.error_replica_ids,
            table_commit_infos := buildPreCommitInfos maps.table_to_partition,
            publish_tasks := acc.involved_backends.map (fun b => (b, none)) }
          .ok (unprotectUpsertTransactionState s txn')

/-! ### Lemmas about the commit check -/

/-- Replicas of the hosted backends classified c, in backend order
(the specification-side reading of the three collected lists). -/
def tabletClassList (t : TabletM) (cb : Option (List Nat)) (bs : List Nat)
    (c : ReplicaCommitClass) : List Replica :=
  bs.filterMap (fun b =>
    match t.getReplica b with
    | some r => if classifyCommitReplica cb b r = c then some r else none
    | none => none)

lemma classifyTabletLoop_missing (t : TabletM) (cb : Option (List Nat)) :
    ∀ bs : List Nat, (∃ b ∈ bs, t.getReplica b = none) →
      ∃ b, classifyTabletLoop t cb bs = .error (.replicaNotFound t.tablet_id b) ∧
        t.getReplica b = none := by
  intro bs
  induction bs with
  | nil => rintro ⟨b, hb, -⟩; exact absurd hb (List.not_mem_nil b)
  | cons b bs ih =>
    rintro ⟨b', hb', hnone⟩
    rcases hrep : t.getReplica b with - | r
    · exact ⟨b, by simp [classifyTabletLoop, hrep], hrep⟩
    · rcases List.mem_cons.mp hb' with rfl | hmem
      · rw [hrep] at hnone; cases hnone
      · rcases ih ⟨b', hmem, hnone⟩ with ⟨b2, herr, h2⟩
        exact ⟨b2, by simp [classifyTabletLoop, hrep, herr], h2⟩

lemma classifyTabletLoop_ok (t : TabletM) (cb : Option (List Nat)) :
    ∀ bs : List Nat, (∀ b ∈ bs, (t.getReplica b).isSome) →
      classifyTabletLoop t cb bs =
        .ok (tabletClassList t cb bs .succ, tabletClassList t cb bs .writeFailed,
             tabletClassList t cb bs .versionFailed) := by
  intro bs
  induction bs with
  | nil => intro; rfl
  | cons b bs ih =>
    intro h
    rcases Option.isSome_iff_exists.mp (h b (List.mem_cons_self b bs)) with ⟨r, hrep⟩
    have hrest := ih (fun b' hb' => h b' (List.mem_cons_of_mem b hb'))
    rcases hc : classifyCommitReplica cb b r with - | - | - <;>
      simp [classifyTabletLoop, hrep, hrest, tabletClassList, List.filterMap_cons, hc]

lemma mem_addErrId {errs : List Nat} {i x : Nat} :
    x ∈ addErrId errs i ↔ x = i ∨ x ∈ errs := by
  unfold addErrId
  by_cases h : i ∈ errs
  · rw [if_pos h]
    constructor
    · exact Or.inr
    · rintro (rfl | hx)
      · exact h
      · exact hx
  · rw [if_neg h]
    exact List.mem_cons

lemma mem_foldl_addErrId (wf : List Replica) :
    ∀ errs : List Nat, ∀ x : Nat,
      (x ∈ wf.foldl (fun es r => addErrId es r.rid) errs ↔
        x ∈ errs ∨ x ∈ wf.map (fun r => r.rid)) := by
  induction wf with
  | nil => simp
  | cons r wf ih =>
    intro errs x
    rw [List.foldl_cons, ih (addErrId errs r.rid) x]
    rw [mem_addErrId]
    simp only [List.map_cons, List.mem_cons]
    tauto

lemma checkOneTabletCommit_missing (lr : Nat) (t2b : List (Nat × List Nat))
    (acc : CommitAcc) (t : TabletM) (h : ∃ b ∈ t.backends, t.getReplica b = none) :
    ∃ b, checkOneTabletCommit lr t2b acc t = .error (.replicaNotFound t.tablet_id b) ∧
      t.getReplica b = none := by
  rcases classifyTabletLoop_missing t (commitBackendsOf t2b t) t.backends h with ⟨b, herr, hnone⟩
  exact ⟨b, by simp [checkOneTabletCommit, herr], hnone⟩

lemma checkOneTabletCommit_no_missing (lr : Nat) (t2b : List (Nat × List Nat))
    (acc : CommitAcc) (t : TabletM) (h : ∀ b ∈ t.backends, (t.getReplica b).isSome) :
    checkOneTabletCommit lr t2b acc t =
      (if (tabletClassList t (commitBackendsOf t2b t) t.backends .succ).length < lr
       then .error (.tabletQuorumFailed t.tablet_id)
       else .ok ⟨(tabletClassList t (commitBackendsOf t2b t) t.backends
                    .writeFailed).foldl (fun es r => addErrId es r.rid) acc.error_replica_ids,
                 addInvolved acc.involved_backends t.backends⟩) := by
  unfold checkOneTabletCommit
  rw [classifyTabletLoop_ok t (commitBackendsOf t2b t) t.backends h]

lemma checkOneTabletCommit_ok_props {lr : Nat} {t2b : List (Nat × List Nat)}
    {acc acc' : CommitAcc} {t : TabletM}
    (h : checkOneTabletCommit lr t2b acc t = .ok acc') :
    (∀ b ∈ t.backends, (t.getReplica b).isSome) ∧
      ¬ (tabletClassList t (commitBackendsOf t2b t) t.backends .succ).length < lr := by
  by_cases hm : ∃ b ∈ t.backends, t.getReplica b = none
  · rcases checkOneTabletCommit_missing lr t2b acc t hm with ⟨b, herr, -⟩
    rw [herr] at h
    cases h
  · push_neg at hm
    have hsome : ∀ b ∈ t.backends, (t.getReplica b).isSome := by
      intro b hb
      exact Option.isSome_iff_ne_none.mpr (hm b hb)
    refine ⟨hsome, ?_⟩
    rw [checkOneTabletCommit_no_missing lr t2b acc t hsome] at h
    intro hlt
    rw [if_pos hlt] at h
    cases h

lemma checkTabletsFold_ok_all (lr : Nat) (t2b : List (Nat × List Nat)) :
    ∀ (ts : List TabletM) (acc acc' : CommitAcc),
      checkTabletsFold lr t2b ts acc = .ok acc' →
      ∀ t ∈ ts, (∀ b ∈ t.backends, (t.getReplica b).isSome) ∧
        ¬ (tabletClassList t (commitBackendsOf t2b t) t.backends .succ).length < lr := by
  intro ts
  induction ts with
  | nil => intro acc acc' h t ht; exact absurd ht (List.not_mem_nil t)
  | cons t0 ts ih =>
    intro acc acc' h t ht
    unfold checkTabletsFold at h
    rcases h0 : checkOneTabletCommit lr t2b acc t0 with e | acc1
    · rw [h0] at h; cases h
    · rw [h0] at h
      rcases List.mem_cons.mp ht with rfl | hmem
      · exact checkOneTabletCommit_ok_props h0
      · exact ih acc1 acc' h t hmem

lemma checkPartitionsOfTableCommit_ok_all (loaded : List (Int × List Nat))
    (t2b : List (Nat × List Nat)) (table : TableM) (pids : List Int) :
    ∀ (ps : List PartitionM) (acc acc' : CommitAcc),
      checkPartitionsOfTableCommit loaded t2b table pids ps acc = .ok acc' →
      ∀ p ∈ ps, p.partition_id ∈ pids →
        ∀ t ∈ partitionTablets loaded table.table_id p,
          (∀ b ∈ t.backends, (t.getReplica b).isSome) ∧
          ¬ (tabletClassList t (commitBackendsOf t2b t) t.backends .succ).length <
              p.load_required_replica_num := by
  intro ps
  induction ps with
  | nil => intro acc acc' h p hp; exact absurd hp (List.not_mem_nil p)
  | cons p0 ps ih =>
    intro acc acc' h p hp hpid
    unfold checkPartitionsOfTableCommit at h
    by_cases hin : p0.partition_id ∈ pids
    · rw [if_pos hin] at h
      rcases h0 : checkTabletsFold p0.load_required_replica_num t2b
          (partitionTablets loaded table.table_id p0) acc with e | acc1
      · rw [h0] at h; cases h
      · rw [h0] at h
        rcases List.mem_cons.mp hp with rfl | hmem
        · exact fun t ht => checkTabletsFold_ok_all _ _ _ _ _ h0 t ht
        · exact ih acc1 acc' h p hmem hpid
    · rw [if_neg hin] at h
      rcases List.mem_cons.mp hp with rfl | hmem
      · exact absurd hpid hin
      · exact ih acc acc' h p hmem hpid

lemma checkTablesFold_ok_all (db : DbM) (loaded : List (Int × List Nat))
    (t2b : List (Nat × List Nat)) :
    ∀ (items : List (Int × List Int)) (acc acc' : CommitAcc),
      checkTablesFold db loaded t2b items acc = .ok acc' →
      ∀ e ∈ items, ∀ table, db.getTable e.1 = some table →
        ∀ p ∈ table.partitions, p.partition_id ∈ e.2 →
          ∀ t ∈ partitionTablets loaded table.table_id p,
            (∀ b ∈ t.backends, (t.getReplica b).isSome) ∧
            ¬ (tabletClassList t (commitBackendsOf t2b t) t.backends .succ).length <
                p.load_required_replica_num := by
  intro items
  induction items with
  | nil => intro acc acc' h e he; exact absurd he (List.not_mem_nil e)
  | cons e0 items ih =>
    intro acc acc' h e he table htable
    unfold checkTablesFold at h
    rcases List.mem_cons.mp he with rfl | hmem
    · simp only [htable] at h
      rcases h0 : checkPartitionsOfTableCommit loaded t2b table e.2 table.partitions acc
          with er | acc1
      · simp only [h0] at h
        cases h
      · simp only [h0] at h
        exact fun p hp hpid => checkPartitionsOfTableCommit_ok_all _ _ _ _ _ _ _ h0 p hp hpid
    · rcases hget : db.getTable e0.1 with - | table0
      · simp only [hget] at h
        cases h
      · simp only [hget] at h
        rcases h0 : checkPartitionsOfTableCommit loaded t2b table0 e0.2 table0.partitions acc
            with er | acc1
        · simp only [h0] at h
          cases h
        · simp only [h0] at h
          exact ih acc1 acc' h e hmem table htable

/-! ### Claim theorems C3 and C10 -/

/-- C3: the commit check classifies each replica of each tablet exactly
as specified (success when the backend committed and the replica has no
prior failure; version-failed when it committed with a prior failure;
write-failed, with its id entering errorReplicaIds, when the backend did
not commit), a missing replica fails the commit with a commit error, a
tablet with fewer success replicas than loadRequiredReplicaNum fails it
with the quorum exception, and a commit that passes the check has no
missing replica and quorum on every tablet of every loaded index of
every affected partition. -/
theorem checkCommitStatus_spec :
    (∀ (cb : Option (List Nat)) (b : Nat) (r : Replica),
      (classifyCommitReplica cb b r = .succ ↔
        (∃ l, cb = some l ∧ b ∈ l) ∧ r.last_failed_version < 0) ∧
      (classifyCommitReplica cb b r = .versionFailed ↔
        (∃ l, cb = some l ∧ b ∈ l) ∧ ¬ r.last_failed_version < 0) ∧
      (classifyCommitReplica cb b r = .writeFailed ↔
        ¬ ∃ l, cb = some l ∧ b ∈ l)) ∧
    (∀ (lr : Nat) (t2b : List (Nat × List Nat)) (acc : CommitAcc) (t : TabletM),
      ((∃ b ∈ t.backends, t.getReplica b = none) →
        ∃ b, checkOneTabletCommit lr t2b acc t =
            .error (.replicaNotFound t.tablet_id b) ∧ t.getReplica b = none) ∧
      ((∀ b ∈ t.backends, (t.getReplica b).isSome) →
        (checkOneTabletCommit lr t2b acc t = .error (.tabletQuorumFailed t.tablet_id) ↔
          (tabletClassList t (commitBackendsOf t2b t) t.backends .succ).length < lr)) ∧
      (∀ acc', checkOneTabletCommit lr t2b acc t = .ok acc' →
        ∀ x, x ∈ acc'.error_replica_ids ↔
          x ∈ acc.error_replica_ids ∨
            x ∈ (tabletClassList t (commitBackendsOf t2b t) t.backends
                  .writeFailed).map (fun r => r.rid))) ∧
    (∀ (db : DbM) (table_ids : List Int) (txn : TransactionState)
        (infos : List TabletCommitInfo) (inv : List (Nat × TabletMetaM))
        (maps : CommitMaps) (acc : CommitAcc),
      checkCommitStatus db table_ids txn infos inv = .ok (maps, acc) →
      ∀ e ∈ maps.table_to_partition, ∀ table, db.getTable e.1 = some table →
        ∀ p ∈ table.partitions, p.partition_id ∈ e.2 →
          ∀ t ∈ partitionTablets txn.loaded_tbl_indexes table.table_id p,
            (∀ b ∈ t.backends, (t.getReplica b).isSome) ∧
            ¬ (tabletClassList t (commitBackendsOf maps.tablet_to_backends t)
                  t.backends .succ).length < p.load_required_replica_num) := by
  refine ⟨?_, ?_, ?_⟩
  · intro cb b r
    rcases cb with - | l
    · refine ⟨?_, ?_, ?_⟩ <;> simp [classifyCommitReplica]
    · by_cases hb : b ∈ l
      · by_cases hv : r.last_failed_version < 0
        · refine ⟨?_, ?_, ?_⟩ <;> simp [classifyCommitReplica, hb, hv]
        · refine ⟨?_, ?_, ?_⟩ <;> simp [classifyCommitReplica, hb, hv]
      · refine ⟨?_, ?_, ?_⟩ <;> simp [classifyCommitReplica, hb]
  · intro lr t2b acc t
    refine ⟨checkOneTabletCommit_missing lr t2b acc t, ?_, ?_⟩
    · intro hsome
      rw [checkOneTabletCommit_no_missing lr t2b acc t hsome]
      by_cases hlt :
          (tabletClassList t (commitBackendsOf t2b t) t.backends .succ).length < lr
      · rw [if_pos hlt]
        simp [hlt]
      · rw [if_neg hlt]
        simp [hlt]
    · intro acc' hok x
      have hsome : ∀ b ∈ t.backends, (t.getReplica b).isSome :=
        (checkOneTabletCommit_ok_props hok).1
      have hnlt := (checkOneTabletCommit_ok_props hok).2
      rw [checkOneTabletCommit_no_missing lr t2b acc t hsome, if_neg hnlt] at hok
      cases hok
      exact mem_foldl_addErrId _ _ _
  · intro db table_ids txn infos inv maps acc h
    unfold checkCommitStatus at h
    rcases h1 : buildCommitMaps db table_ids inv infos ⟨[], []⟩ with e | maps1
    · simp only [h1] at h
      cases h
    · simp only [h1] at h
      rcases h2 : checkTablesFold db txn.loaded_tbl_indexes maps1.tablet_to_backends
          maps1.table_to_partition ⟨[], []⟩ with e | acc1
      · simp only [h2] at h
        cases h
      · simp only [h2] at h
        simp only [Except.ok.injEq, Prod.mk.injEq] at h
        rcases h with ⟨rfl, rfl⟩
        exact fun e he table ht p hp hpid =>
          checkTablesFold_ok_all db txn.loaded_tbl_indexes maps1.tablet_to_backends
            maps1.table_to_partition ⟨[], []⟩ acc1 h2 e he table ht p hp hpid

/-- Concrete 3-replica tablet for the C3 witness: backends 1 and 2
committed, backend 3 did not. -/
def c3Tablet : TabletM :=
  ⟨77, [1, 2, 3],
    [⟨10, 1, 5, -1, 5, .NORMAL⟩, ⟨20, 2, 5, -1, 5, .NORMAL⟩, ⟨30, 3, 5, -1, 5, .NORMAL⟩]⟩

/-- The accumulator the C3 witness tablet produces. -/
def c3Acc : CommitAcc := ⟨[30], [1, 2, 3]⟩

/-- Witness for C3 at the quorum-commit scenario: no replica is missing,
the tablet passes the 2-of-3 quorum, and the write-failed replica id 30
enters errorReplicaIds. -/
theorem checkCommitStatus_spec_witness :
    (∀ b ∈ c3Tablet.backends, (c3Tablet.getReplica b).isSome) ∧
    checkOneTabletCommit 2 [(77, [1, 2])] ⟨[], []⟩ c3Tablet ≠
      .error (.tabletQuorumFailed 77) ∧
    30 ∈ c3Acc.error_replica_ids := by
  have H := checkCommitStatus_spec
  have h1 : ∀ b ∈ c3Tablet.backends, (c3Tablet.getReplica b).isSome := by decide
  have h2 := (H.2.1 2 [(77, [1, 2])] ⟨[], []⟩ c3Tablet).2.1 h1
  have hok : checkOneTabletCommit 2 [(77, [1, 2])] ⟨[], []⟩ c3Tablet = .ok c3Acc := by
    rfl
  have h3 := (H.2.1 2 [(77, [1, 2])] ⟨[], []⟩ c3Tablet).2.2 c3Acc hok 30
  exact ⟨h1, fun heq => absurd (h2.mp heq) (by decide), h3.mpr (Or.inr (by decide))⟩

/-- C10: committing an already COMMITTED or VISIBLE transaction with
is2PC false returns normally with the manager state and the catalog both
unchanged; the same call with is2PC true fails; committing a missing or
ABORTED transaction always fails. -/
theorem commitTransaction_repeat_spec (s : MgrState) (db : DbM) (table_ids : List Int)
    (transaction_id : Nat) (infos : List TabletCommitInfo)
    (inv : List (Nat × TabletMetaM)) :
    (∀ txn, lookupTxn s.txns transaction_id = some txn →
      ((txn.status = .COMMITTED ∨ txn.status = .VISIBLE) →
        commitTransaction s db table_ids transaction_id infos inv false = .ok (s, db)) ∧
      (txn.status = .COMMITTED →
        commitTransaction s db table_ids transaction_id infos inv true =
          .error .committedNotPreCommitted) ∧
      (txn.status = .VISIBLE →
        commitTransaction s db table_ids transaction_id infos inv true =
          .error .visibleNotPreCommitted) ∧
      (txn.status = .ABORTED → ∀ is2PC,
        commitTransaction s db table_ids transaction_id infos inv is2PC =
          .error .alreadyAborted)) ∧
    (lookupTxn s.txns transaction_id = none → ∀ is2PC,
      commitTransaction s db table_ids transaction_id infos inv is2PC =
        .error .transactionNotFound) := by
  constructor
  · intro txn hlook
    refine ⟨?_, ?_, ?_, ?_⟩
    · rintro (h | h) <;> simp [commitTransaction, hlook, h]
    · intro h
      simp [commitTransaction, hlook, h]
    · intro h
      simp [commitTransaction, hlook, h]
    · intro h is2PC
      simp [commitTransaction, hlook, h]
  · intro hnone is2PC
    simp [commitTransaction, hnone]

/-- Transactions for the C10 witness. -/
def c10TxnOf (tid : Nat) (lab : String) (st : TransactionStatus) : TransactionState :=
  { transaction_id := tid, label := lab, request_id := none,
    routine_load := false, status := st, table_id_list := [],
    loaded_tbl_indexes := [], table_commit_infos := [], error_replicas := [],
    publish_tasks := [], first_publish_version_time := -1, err_msg := none }

/-- Manager state for the C10 witness: one committed, one visible and
one aborted transaction. -/
def c10State : MgrState :=
  ⟨[c10TxnOf 1 "a" .COMMITTED, c10TxnOf 2 "b" .VISIBLE, c10TxnOf 3 "c" .ABORTED],
   [("a", [1]), ("b", [2]), ("c", [3])], 4⟩

/-- Witness for C10 at concrete states. -/
theorem commitTransaction_repeat_spec_witness :
    commitTransaction c10State ⟨[]⟩ [] 1 [] [] false = .ok (c10State, ⟨[]⟩) ∧
    commitTransaction c10State ⟨[]⟩ [] 1 [] [] true = .error .committedNotPreCommitted ∧
    commitTransaction c10State ⟨[]⟩ [] 2 [] [] false = .ok (c10State, ⟨[]⟩) ∧
    commitTransaction c10State ⟨[]⟩ [] 2 [] [] true = .error .visibleNotPreCommitted ∧
    commitTransaction c10State ⟨[]⟩ [] 3 [] [] true = .error .alreadyAborted ∧
    commitTransaction c10State ⟨[]⟩ [] 99 [] [] true = .error .transactionNotFound := by
  have H1 := (commitTransaction_repeat_spec c10State ⟨[]⟩ [] 1 [] []).1
    (c10TxnOf 1 "a" .COMMITTED) (by decide)
  have H2 := (commitTransaction_repeat_spec c10State ⟨[]⟩ [] 2 [] []).1
    (c10TxnOf 2 "b" .VISIBLE) (by decide)
  have H3 := (commitTransaction_repeat_spec c10State ⟨[]⟩ [] 3 [] []).1
    (c10TxnOf 3 "c" .ABORTED) (by decide)
  have H4 := (commitTransaction_repeat_spec c10State ⟨[]⟩ [] 99 [] []).2 (by decide)
  exact ⟨H1.1 (Or.inl rfl), H1.2.1 rfl, H2.1 (Or.inr rfl), H2.2.2.1 rfl,
    H3.2.2.2 rfl true, H4 true⟩

/-! ### finishTransaction and its checks (lines 1003-1310) -/

/-- errorReplicaIds is a set: remove. -/
def removeErrId (errs : List Nat) (i : Nat) : List Nat :=
  errs.filter (fun x => x != i)

/-- The two configuration keys the publish check reads. -/
structure PublishCfg where
  publish_wait_time_second : Int
  publish_version_check_alter_replica : Bool
deriving DecidableEq

/-- First block of checkReplicaContinuousVersionSucc (lines 1267-1285):
a missing or unfinished task records the replica errored; a finished
task with an explicit succ-tablet set clears or records the error by
membership; a legacy task that reports only error tablets records the
error exactly when the tablet appears there and never clears. -/
def publishTaskErrStep (tablet_id : Nat) (task : Option PublishVersionTask)
    (rid : Nat) (errs : List Nat) : List Nat :=
  match task with
  | none => addErrId errs rid
  | some t =>
    if t.finished = false then addErrId errs rid
    else
      match t.succ_tablets with
      | some su => if tablet_id ∈ su then removeErrId errs rid else addErrId errs rid
      | none =>
        match t.error_tablets with
        | some et => if tablet_id ∈ et then addErrId errs rid else errs
        | none => errs

/-- Alter block (lines 1293-1296): clear the error of an ALTER replica
when the transaction does not postdate the alter watermark or the
configuration flag disables the check. -/
def alterErrStep (r : Replica) (alter_replica_loaded_txn : Bool)
    (check_alter : Bool) (errs : List Nat) : List Nat :=
  if r.rstate = .ALTER ∧ (alter_replica_loaded_txn = false ∨ check_alter = false)
  then removeErrId errs r.rid else errs

inductive ReplicaPublishClass
  | succ
  | versionFailed
  | writeFailed
deriving DecidableEq

/-- Final classification (lines 1298-1309): no recorded error and
version-continuous is success, no error but lagging is version-failed,
recorded error with version already at the target is success (clearing
the error), otherwise write-failed. -/
def classifyPublishReplica (r : Replica) (version : Int) (errs : List Nat) :
    ReplicaPublishClass × List Nat :=
  if r.rid ∉ errs then
    if r.checkVersionCatchUp (version - 1) then (.succ, errs) else (.versionFailed, errs)
  else if r.version ≥ version then (.succ, removeErrId errs r.rid)
  else (.writeFailed, errs)

/-- DatabaseTransactionMgr.checkReplicaContinuousVersionSucc
(lines 1263-1310): the three blocks in order. -/
def checkReplicaContinuousVersionSucc (tablet_id : Nat) (r : Replica)
    (alter_replica_loaded_txn : Bool) (version : Int)
    (task : Option PublishVersionTask) (check_alter : Bool) (errs : List Nat) :
    ReplicaPublishClass × List Nat :=
  classifyPublishReplica r version
    (alterErrStep r alter_replica_loaded_txn check_alter
      (publishTaskErrStep tablet_id task r.rid errs))

/-- publishTasks.get: absent and null placeholder both yield none. -/
def getPublishTask (m : List (Nat × Option PublishVersionTask)) (b : Nat) :
    Option PublishVersionTask :=
  match m.find? (fun e => e.1 = b) with
  | some e => e.2
  | none => none

/-- Replica loop of one tablet of finishCheckQuorumReplicas (lines
1174-1179): classify every replica, threading errorReplicaIds, and
count the (succ, write-failed, version-failed) lists. -/
def classifyTabletPublish (tablet_id : Nat) (alter_loaded : Bool) (version : Int)
    (tasks : List (Nat × Option PublishVersionTask)) (check_alter : Bool) :
    List Replica → List Nat → (Nat × Nat × Nat) × List Nat
  | [], errs => ((0, 0, 0), errs)
  | r :: rs, errs =>
    let c := checkReplicaContinuousVersionSucc tablet_id r alter_loaded version
        (getPublishTask tasks r.backend_id) check_alter errs
    let rest := classifyTabletPublish tablet_id alter_loaded version tasks check_alter rs c.2
    match c.1 with
    | .succ => ((rest.1.1 + 1, rest.1.2.1, rest.1.2.2), rest.2)
    | .writeFailed => ((rest.1.1, rest.1.2.1 + 1, rest.1.2.2), rest.2)
    | .versionFailed => ((rest.1.1, rest.1.2.1, rest.1.2.2 + 1), rest.2)

/-- isAlterReplicaLoadedTxn (lines 1248-1261); alter_jobs gives the
watershed transaction ids of the unfinished alter jobs of a table. -/
def isAlterReplicaLoadedTxn (alter_jobs : Int → List Nat) (transaction_id : Nat)
    (table : TableM) : Bool :=
  match table.tstate with
  | .SCHEMA_CHANGE => (alter_jobs table.table_id).all (fun w => w < transaction_id)
  | .ROLLUP => (alter_jobs table.table_id).all (fun w => w < transaction_id)
  | _ => true

inductive PublishResult
  | FAILED
  | TIMEOUT_SUCC
  | QUORUM_SUCC
deriving DecidableEq

/-- Which of the three per-tablet log branches fired (lines 1182-1230). -/
inductive TabletPublishBranch
  | quorumWithFailed
  | timeoutPromoted
  | failed
deriving DecidableEq

/-- Structured form of one per-tablet log line of the quorum check. -/
structure TabletPublishLog where
  tablet_id : Nat
  succ_num : Nat
  required : Nat
  branch : TabletPublishBranch
deriving DecidableEq

/-- The tablet with its target version, quorum requirement and
alter-loaded flag, as visited by the loop of lines 1141-1179. -/
structure TabletPubCtx where
  tablet : TabletM
  new_version : Int
  required : Nat
  alter_loaded : Bool
deriving DecidableEq

def publishTabletCtxs (alter_jobs : Int → List Nat) (txn : TransactionState)
    (related : List (TableM × PartitionM)) : List TabletPubCtx :=
  (related.map (fun pr =>
    ((allIndicesOf txn.loaded_tbl_indexes pr.1.table_id pr.2).map (fun idx =>
      idx.tablets.map (fun t =>
        (⟨t, pr.2.visible_version + 1, pr.2.load_required_replica_num,
          isAlterReplicaLoadedTxn alter_jobs txn.transaction_id pr.1⟩ :
          TabletPubCtx)))).flatten)).flatten

structure QuorumState where
  result : PublishResult
  errs : List Nat
  logs : List TabletPublishLog
  err_msg : Option TxnErrMsg

/-- One tablet of finishCheckQuorumReplicas (lines 1170-1231): quorum
met logs only when some replica failed; under quorum with the timeout
escalation promotes QUORUM_SUCC to TIMEOUT_SUCC; otherwise the result
drops to FAILED and an error message is recorded. -/
def quorumStep (allow_one_succ : Bool) (tasks : List (Nat × Option PublishVersionTask))
    (check_alter : Bool) (st : QuorumState) (c : TabletPubCtx) : QuorumState :=
  let r := classifyTabletPublish c.tablet.tablet_id c.alter_loaded c.new_version tasks
      check_alter c.tablet.replicas st.errs
  let succ := r.1.1
  let wf := r.1.2.1
  let vf := r.1.2.2
  let errs' := r.2
  if c.required ≤ succ then
    if wf + vf ≠ 0 then
      { st with
        errs := errs',
        logs := st.logs ++ [⟨c.tablet.tablet_id, succ, c.required, .quorumWithFailed⟩] }
    else { st with errs := errs' }
  else if allow_one_succ = true ∧ 0 < succ then
    { result := if st.result = .QUORUM_SUCC then .TIMEOUT_SUCC else st.result,
      errs := errs',
      logs := st.logs ++ [⟨c.tablet.tablet_id, succ, c.required, .timeoutPromoted⟩],
      err_msg := st.err_msg }
  else
    { result := .FAILED, errs := errs',
      logs := st.logs ++ [⟨c.tablet.tablet_id, succ, c.required, .failed⟩],
      err_msg := some (.publishFailed c.tablet.tablet_id succ c.required) }

/-- allowPublishOneSucc (lines 1128-1132). -/
def allowPublishOneSucc (cfg : PublishCfg) (first_publish now : Int) : Bool :=
  decide (cfg.publish_wait_time_second > 0 ∧ first_publish > 0 ∧
    now ≥ first_publish + cfg.publish_wait_time_second * 1000)

/-- DatabaseTransactionMgr.finishCheckQuorumReplicas (lines 1123-1246):
fold the per-tablet step over all tablets of the related partitions,
starting from the transaction's error replicas and QUORUM_SUCC. -/
def finishCheckQuorumReplicas (txn : TransactionState)
    (related : List (TableM × PartitionM)) (alter_jobs : Int → List Nat)
    (cfg : PublishCfg) (now : Int) : QuorumState :=
  (publishTabletCtxs alter_jobs txn related).foldl
    (quorumStep (allowPublishOneSucc cfg txn.first_publish_version_time now)
      txn.publish_tasks cfg.publish_version_check_alter_replica)
    ⟨.QUORUM_SUCC, txn.error_replicas, [], txn.err_msg⟩

/-! ### finishCheckPartitionVersion (lines 1074-1121) -/

/-- Partition loop of finishCheckPartitionVersion.  Returns (all passed,
surviving commit infos, message set on failure, partitions collected).
A dropped partition's entry is removed; the first version mismatch stops
the scan, keeping the unvisited entries. -/
def checkPartitionsVersionOfTable (table : TableM) :
    List PartitionCommitInfo →
      Bool × List PartitionCommitInfo × Option TxnErrMsg × List PartitionM
  | [] => (true, [], none, [])
  | pci :: rest =>
    match table.getPartition pci.partition_id with
    | none => checkPartitionsVersionOfTable table rest
    | some p =>
      if p.visible_version ≠ pci.version - 1 then
        (false, pci :: rest,
         some (.waitForPublishing pci.partition_id (p.visible_version + 1)), [])
      else
        let r := checkPartitionsVersionOfTable table rest
        (r.1, pci :: r.2.1, r.2.2.1, p :: r.2.2.2)

/-- Table loop of finishCheckPartitionVersion: a dropped table's entry
is removed; a version failure below stops the scan. -/
def checkTablesVersion (db : DbM) :
    List TableCommitInfo →
      Bool × List TableCommitInfo × Option TxnErrMsg × List (TableM × PartitionM)
  | [] => (true, [], none, [])
  | tci :: rest =>
    match db.getTable tci.table_id with
    | none => checkTablesVersion db rest
    | some table =>
      let pr := checkPartitionsVersionOfTable table tci.partition_commit_infos
      if pr.1 = true then
        let r := checkTablesVersion db rest
        (r.1, ⟨tci.table_id, pr.2.1⟩ :: r.2.1, r.2.2.1,
         (pr.2.2.2.map (fun p => (table, p))) ++ r.2.2.2)
      else
        (false, ⟨tci.table_id, pr.2.1⟩ :: rest, pr.2.2.1, [])

structure PartVersionCheckRes where
  ok : Bool
  table_commit_infos : List TableCommitInfo
  err_msg : Option TxnErrMsg
  related : List (TableM × PartitionM)

/-- DatabaseTransactionMgr.finishCheckPartitionVersion. -/
def finishCheckPartitionVersion (txn : TransactionState) (db : DbM) :
    PartVersionCheckRes :=
  let r := checkTablesVersion db txn.table_commit_infos
  ⟨r.1, r.2.1, r.2.2.1, r.2.2.2⟩

/-! ### updateCatalogAfterVisible (lines 1927-2015) and finishTransaction -/

/-- Per-replica update of updateCatalogAfterVisible, section 4.12
(replica.updateVersionWithFailedInfo is modelled from the spec as the
field write of the three computed values). -/
def updateReplicaAfterVisible (errs : List Nat) (p_visible commit_version : Int)
    (r : Replica) : Replica :=
  if r.rid ∉ errs then
    if r.checkVersionCatchUp p_visible = false then
      { r with last_failed_version := p_visible, last_success_version := commit_version }
    else { r with version := commit_version, last_success_version := commit_version }
  else
    { r with last_failed_version :=
        if commit_version > r.last_failed_version then commit_version
        else r.last_failed_version }

def updateCatalogAfterVisible (txn : TransactionState) (db : DbM) : DbM :=
  txn.table_commit_infos.foldl (fun db1 tci =>
    tci.partition_commit_infos.foldl (fun db2 pci =>
      match (db2.getTable tci.table_id).bind (fun t => t.getPartition pci.partition_id) with
      | none => db2
      | some _ =>
        db2.modifyPartition tci.table_id pci.partition_id (fun p =>
          let p1 := mapTabletsOfPartition
            (updateReplicaAfterVisible txn.error_replicas p.visible_version pci.version) p
          { p1 with visible_version := pci.version })) db1) db

inductive FinishError
  | transactionNotFound
deriving DecidableEq

/-- The transaction object after finishCheckPartitionVersion mutated its
commit infos and (on failure) its error message in place: the
transactionState value at line 1032 of the source. -/
def finishTxn1 (txn : TransactionState) (db : DbM) : TransactionState :=
  { txn with
    table_commit_infos := (finishCheckPartitionVersion txn db).table_commit_infos,
    err_msg := match (finishCheckPartitionVersion txn db).err_msg with
               | some m => some m
               | none => txn.err_msg }

/-- The quorum check outcome of line 1035 on that transaction. -/
def finishQuorumOf (txn : TransactionState) (db : DbM) (alter_jobs : Int → List Nat)
    (cfg : PublishCfg) (now : Int) : QuorumState :=
  finishCheckQuorumReplicas (finishTxn1 txn db)
    (finishCheckPartitionVersion txn db).related alter_jobs cfg now

/-- Body of finishTransaction once the transaction is resolved
(lines 1030-1061): failed partition-version check or FAILED quorum leave
the transaction in its status (its commit infos, error replicas and
error message mutated in place); otherwise the transaction becomes
VISIBLE with a cleared error message and the catalog advances.  The
returned option is the observed publish result, none when the version
check stopped the publish. -/
def finishTransactionWithTxn (s : MgrState) (db : DbM) (txn : TransactionState)
    (alter_jobs : Int → List Nat) (cfg : PublishCfg) (now : Int) :
    (MgrState × DbM) × Option PublishResult :=
  if (finishCheckPartitionVersion txn db).ok = false then
    ((mutateTxn s (finishTxn1 txn db), db), none)
  else if (finishQuorumOf txn db alter_jobs cfg now).result = .FAILED then
    ((mutateTxn s { finishTxn1 txn db with
        error_replicas := (finishQuorumOf txn db alter_jobs cfg now).errs,
        err_msg := (finishQuorumOf txn db alter_jobs cfg now).err_msg }, db),
     some .FAILED)
  else
    ((unprotectUpsertTransactionState s
        { finishTxn1 txn db with
          error_replicas := (finishQuorumOf txn db alter_jobs cfg now).errs,
          err_msg := none, status := .VISIBLE },
      updateCatalogAfterVisible
        { finishTxn1 txn db with
          error_replicas := (finishQuorumOf txn db alter_jobs cfg now).errs,
          err_msg := none, status := .VISIBLE } db),
     some (finishQuorumOf txn db alter_jobs cfg now).result)

/-- DatabaseTransactionMgr.finishTransaction (lines 1003-1072). -/
def finishTransaction (s : MgrState) (db : DbM) (transaction_id : Nat)
    (alter_jobs : Int → List Nat) (cfg : PublishCfg) (now : Int) :
    Except FinishError ((MgrState × DbM) × Option PublishResult) :=
  match lookupTxn s.txns transaction_id with
  | none => .error .transactionNotFound
  | some txn => .ok (finishTransactionWithTxn s db txn alter_jobs cfg now)

/-! ### Claim C5: per-replica publish classification -/

/-- C5: the steps of checkReplicaContinuousVersionSucc behave exactly as
specified: a missing or unfinished task records the replica errored; an
explicit succ-tablet set clears the error on membership and records it
otherwise; a legacy error-tablet report records the error exactly when
the tablet appears (and never clears an existing one); an ALTER replica
is cleared when the transaction predates the watermark or the flag
disables the check; and the final classification is success, version
failed, success (already advanced) or write failed by error-set
membership and version comparison. -/
theorem checkReplicaContinuousVersionSucc_spec :
    (∀ (tablet_id rid : Nat) (errs : List Nat),
      publishTaskErrStep tablet_id none rid errs = addErrId errs rid) ∧
    (∀ (tablet_id rid : Nat) (errs : List Nat) (t : PublishVersionTask),
      t.finished = false →
      publishTaskErrStep tablet_id (some t) rid errs = addErrId errs rid) ∧
    (∀ (tablet_id rid : Nat) (errs : List Nat) (t : PublishVersionTask) (su : List Nat),
      t.finished = true → t.succ_tablets = some su →
      publishTaskErrStep tablet_id (some t) rid errs =
        (if tablet_id ∈ su then removeErrId errs rid else addErrId errs rid)) ∧
    (∀ (tablet_id rid : Nat) (errs : List Nat) (t : PublishVersionTask) (et : List Nat),
      t.finished = true → t.succ_tablets = none → t.error_tablets = some et →
      (publishTaskErrStep tablet_id (some t) rid errs =
        (if tablet_id ∈ et then addErrId errs rid else errs)) ∧
      (∀ x, x ∈ publishTaskErrStep tablet_id (some t) rid errs ↔
        (x = rid ∧ tablet_id ∈ et) ∨ x ∈ errs)) ∧
    (∀ (r : Replica) (alt chk : Bool) (errs : List Nat),
      r.rstate = .ALTER → (alt = false ∨ chk = false) →
      alterErrStep r alt chk errs = removeErrId errs r.rid) ∧
    (∀ (r : Replica) (v : Int) (errs : List Nat),
      (r.rid ∉ errs → r.checkVersionCatchUp (v - 1) = true →
        (classifyPublishReplica r v errs).1 = .succ) ∧
      (r.rid ∉ errs → r.checkVersionCatchUp (v - 1) = false →
        (classifyPublishReplica r v errs).1 = .versionFailed) ∧
      (r.rid ∈ errs → v ≤ r.version → (classifyPublishReplica r v errs).1 = .succ) ∧
      (r.rid ∈ errs → ¬ v ≤ r.version →
        (classifyPublishReplica r v errs).1 = .writeFailed)) ∧
    (∀ (tablet_id : Nat) (r : Replica) (alt : Bool) (v : Int)
        (task : Option PublishVersionTask) (chk : Bool) (errs : List Nat),
      checkReplicaContinuousVersionSucc tablet_id r alt v task chk errs =
        classifyPublishReplica r v
          (alterErrStep r alt chk (publishTaskErrStep tablet_id task r.rid errs))) := by
  refine ⟨?_, ?_, ?_, ?_, ?_, ?_, ?_⟩
  · intro tablet_id rid errs
    rfl
  · intro tablet_id rid errs t h
    simp [publishTaskErrStep, h]
  · intro tablet_id rid errs t su hf hs
    simp [publishTaskErrStep, hf, hs]
  · intro tablet_id rid errs t et hf hs he
    have heq : publishTaskErrStep tablet_id (some t) rid errs =
        (if tablet_id ∈ et then addErrId errs rid else errs) := by
      simp [publishTaskErrStep, hf, hs, he]
    refine ⟨heq, ?_⟩
    intro x
    rw [heq]
    by_cases hm : tablet_id ∈ et
    · rw [if_pos hm, mem_addErrId]
      constructor
      · rintro (rfl | hx)
        · exact Or.inl ⟨rfl, hm⟩
        · exact Or.inr hx
      · rintro (⟨rfl, -⟩ | hx)
        · exact Or.inl rfl
        · exact Or.inr hx
    · rw [if_neg hm]
      constructor
      · exact Or.inr
      · rintro (⟨-, hmem⟩ | hx)
        · exact absurd hmem hm
        · exact hx
  · intro r alt chk errs h1 h2
    simp only [alterErrStep, if_pos (And.intro h1 h2)]
  · intro r v errs
    refine ⟨?_, ?_, ?_, ?_⟩
    · intro h1 h2
      simp [classifyPublishReplica, h1, h2]
    · intro h1 h2
      simp [classifyPublishReplica, h1, h2]
    · intro h1 h2
      simp only [classifyPublishReplica, if_neg (not_not_intro h1), ge_iff_le,
        if_pos h2]
    · intro h1 h2
      simp only [classifyPublishReplica, if_neg (not_not_intro h1), ge_iff_le,
        if_neg h2]
  · intro tablet_id r alt v task chk errs
    rfl

/-- Witness for C5 at concrete replicas: a clean replica caught up to
v - 1 is success; an errored lagging replica is write failed; a missing
task records the replica. -/
theorem checkReplicaContinuousVersionSucc_spec_witness :
    ((5 : Nat) ∉ ([] : List Nat) ∧
      (classifyPublishReplica ⟨5, 1, 10, -1, 10, .NORMAL⟩ 10 []).1 = .succ) ∧
    ((6 : Nat) ∈ [6] ∧ ¬ (10 : Int) ≤ 3 ∧
      (classifyPublishReplica ⟨6, 2, 3, -1, 3, .NORMAL⟩ 10 [6]).1 = .writeFailed) ∧
    publishTaskErrStep 7 none 5 [] = addErrId [] 5 := by
  have H := checkReplicaContinuousVersionSucc_spec
  refine ⟨⟨by decide, ?_⟩, ⟨by decide, by decide, ?_⟩, ?_⟩
  · exact (H.2.2.2.2.2.1 ⟨5, 1, 10, -1, 10, .NORMAL⟩ 10 []).1 (by decide) (by decide)
  · exact (H.2.2.2.2.2.1 ⟨6, 2, 3, -1, 3, .NORMAL⟩ 10 [6]).2.2.2 (by decide) (by decide)
  · exact H.1 7 5 []

/-! ### Lemmas about the partition-version check (C4) -/

lemma lookup_upsert_self (txns : List TransactionState) (t : TransactionState) :
    lookupTxn (upsertTxnList txns t) t.transaction_id = some t := by
  induction txns with
  | nil => simp [upsertTxnList, lookupTxn]
  | cons x xs ih =>
    by_cases h : x.transaction_id = t.transaction_id
    · simp [upsertTxnList, h, lookupTxn]
    · unfold upsertTxnList
      rw [if_neg h]
      unfold lookupTxn at ih ⊢
      rw [List.find?_cons_of_neg]
      · exact ih
      · simp [h]

lemma checkPartitionsVersionOfTable_ok_iff (table : TableM) :
    ∀ pcis : List PartitionCommitInfo,
      ((checkPartitionsVersionOfTable table pcis).1 = true ↔
        ∀ pci ∈ pcis, ∀ p, table.getPartition pci.partition_id = some p →
          p.visible_version = pci.version - 1) := by
  intro pcis
  induction pcis with
  | nil => simp [checkPartitionsVersionOfTable]
  | cons pci rest ih =>
    rcases hp : table.getPartition pci.partition_id with - | p
    · simp only [checkPartitionsVersionOfTable, hp]
      rw [ih]
      constructor
      · intro h pci' hm p' hp'
        rcases List.mem_cons.mp hm with rfl | hm'
        · rw [hp] at hp'
          cases hp'
        · exact h pci' hm' p' hp'
      · intro h pci' hm' p' hp'
        exact h pci' (List.mem_cons_of_mem _ hm') p' hp'
    · by_cases hv : p.visible_version ≠ pci.version - 1
      · simp only [checkPartitionsVersionOfTable, hp, if_pos hv]
        constructor
        · intro h
          cases h
        · intro h
          exact absurd (h pci (List.mem_cons_self pci rest) p hp) hv
      · simp only [checkPartitionsVersionOfTable, hp, if_neg hv]
        push_neg at hv
        rw [ih]
        constructor
        · intro h pci' hm p' hp'
          rcases List.mem_cons.mp hm with rfl | hm'
          · rw [hp] at hp'
            cases hp'
            exact hv
          · exact h pci' hm' p' hp'
        · intro h pci' hm' p' hp'
          exact h pci' (List.mem_cons_of_mem _ hm') p' hp'

lemma checkPartitionsVersionOfTable_ok_infos (table : TableM) :
    ∀ pcis : List PartitionCommitInfo,
      (checkPartitionsVersionOfTable table pcis).1 = true →
      (checkPartitionsVersionOfTable table pcis).2.1 =
        pcis.filter (fun pci => (table.getPartition pci.partition_id).isSome) := by
  intro pcis
  induction pcis with
  | nil => intro; rfl
  | cons pci rest ih =>
    intro h
    rcases hp : table.getPartition pci.partition_id with - | p
    · simp only [checkPartitionsVersionOfTable, hp] at h ⊢
      rw [List.filter_cons]
      simp only [hp, Option.isSome_none, Bool.false_eq_true, if_false]
      exact ih h
    · by_cases hv : p.visible_version ≠ pci.version - 1
      · simp only [checkPartitionsVersionOfTable, hp, if_pos hv] at h
        cases h
      · simp only [checkPartitionsVersionOfTable, hp, if_neg hv] at h ⊢
        rw [List.filter_cons]
        simp only [hp, Option.isSome_some, if_pos]
        rw [ih h]

lemma checkPartitionsVersionOfTable_fail_msg (table : TableM) :
    ∀ pcis : List PartitionCommitInfo,
      (checkPartitionsVersionOfTable table pcis).1 = false →
      (checkPartitionsVersionOfTable table pcis).2.2.1.isSome := by
  intro pcis
  induction pcis with
  | nil => intro h; cases h
  | cons pci rest ih =>
    intro h
    rcases hp : table.getPartition pci.partition_id with - | p
    · simp only [checkPartitionsVersionOfTable, hp] at h ⊢
      exact ih h
    · by_cases hv : p.visible_version ≠ pci.version - 1
      · simp only [checkPartitionsVersionOfTable, hp, if_pos hv]
        rfl
      · simp only [checkPartitionsVersionOfTable, hp, if_neg hv] at h ⊢
        exact ih h

lemma checkTablesVersion_ok_iff (db : DbM) :
    ∀ infos : List TableCommitInfo,
      ((checkTablesVersion db infos).1 = true ↔
        ∀ tci ∈ infos, ∀ table, db.getTable tci.table_id = some table →
          (checkPartitionsVersionOfTable table tci.partition_commit_infos).1 = true) := by
  intro infos
  induction infos with
  | nil => simp [checkTablesVersion]
  | cons tci rest ih =>
    rcases ht : db.getTable tci.table_id with - | table
    · simp only [checkTablesVersion, ht]
      rw [ih]
      constructor
      · intro h tci' hm table' ht'
        rcases List.mem_cons.mp hm with rfl | hm'
        · rw [ht] at ht'
          cases ht'
        · exact h tci' hm' table' ht'
      · intro h tci' hm' table' ht'
        exact h tci' (List.mem_cons_of_mem _ hm') table' ht'
    · by_cases hpr : (checkPartitionsVersionOfTable table tci.partition_commit_infos).1 = true
      · simp only [checkTablesVersion, ht, if_pos hpr]
        rw [ih]
        constructor
        · intro h tci' hm table' ht'
          rcases List.mem_cons.mp hm with rfl | hm'
          · rw [ht] at ht'
            cases ht'
            exact hpr
          · exact h tci' hm' table' ht'
        · intro h tci' hm' table' ht'
          exact h tci' (List.mem_cons_of_mem _ hm') table' ht'
      · simp only [checkTablesVersion, ht, if_neg hpr]
        constructor
        · intro h
          cases h
        · intro h
          exact absurd (h tci (List.mem_cons_self tci rest) table ht) hpr

lemma checkTablesVersion_ok_infos (db : DbM) :
    ∀ infos : List TableCommitInfo,
      (checkTablesVersion db infos).1 = true →
      (checkTablesVersion db infos).2.1 =
        infos.filterMap (fun tci =>
          (db.getTable tci.table_id).map (fun table =>
            (⟨tci.table_id,
              tci.partition_commit_infos.filter
                (fun pci => (table.getPartition pci.partition_id).isSome)⟩ :
              TableCommitInfo))) := by
  intro infos
  induction infos with
  | nil => intro; rfl
  | cons tci rest ih =>
    intro h
    rcases ht : db.getTable tci.table_id with - | table
    · simp only [checkTablesVersion, ht] at h ⊢
      rw [List.filterMap_cons]
      simp only [ht, Option.map_none]
      exact ih h
    · by_cases hpr : (checkPartitionsVersionOfTable table tci.partition_commit_infos).1 = true
      · simp only [checkTablesVersion, ht, if_pos hpr] at h ⊢
        rw [List.filterMap_cons]
        simp only [ht, Option.map_some]
        rw [ih h, checkPartitionsVersionOfTable_ok_infos table _ hpr]
        rfl
      · simp only [checkTablesVersion, ht, if_neg hpr] at h
        cases h

lemma checkTablesVersion_fail_msg (db : DbM) :
    ∀ infos : List TableCommitInfo,
      (checkTablesVersion db infos).1 = false →
      (checkTablesVersion db infos).2.2.1.isSome := by
  intro infos
  induction infos with
  | nil => intro h; cases h
  | cons tci rest ih =>
    intro h
    rcases ht : db.getTable tci.table_id with - | table
    · simp only [checkTablesVersion, ht] at h ⊢
      exact ih h
    · by_cases hpr : (checkPartitionsVersionOfTable table tci.partition_commit_infos).1 = true
      · simp only [checkTablesVersion, ht, if_pos hpr] at h ⊢
        exact ih h
      · simp only [checkTablesVersion, ht, if_neg hpr]
        exact checkPartitionsVersionOfTable_fail_msg table _
          (Bool.not_eq_true _ ▸ Bool.of_not_eq_true hpr)

/-! ### Claim C4 -/

/-- Transaction state for the C4 counterexample: its first commit info
points at an existing partition whose version check fails, the second at
a dropped table. -/
def c4Txn : TransactionState :=
  { transaction_id := 50, label := "F", request_id := none,
    routine_load := false, status := .COMMITTED, table_id_list := [1, 2],
    loaded_tbl_indexes := [],
    table_commit_infos := [⟨1, [⟨10, 7⟩]⟩, ⟨2, [⟨20, 9⟩]⟩],
    error_replicas := [], publish_tasks := [],
    first_publish_version_time := -1, err_msg := none }

/-- Catalog for the C4 counterexample: table 1 exists with partition 10
at visible version 5 (so commit version 7 is not next); table 2 is
dropped. -/
def c4Db : DbM := ⟨[⟨1, .NORMAL, [⟨10, 5, 8, 1, []⟩]⟩]⟩

/-- C4 counterexample: the check returns false at the version mismatch
of table 1 and stops, so the commit-info entry of the dropped table 2 is
not removed, contradicting the claim that every dangling entry is
removed. -/
theorem finishCheckPartitionVersion_counterexample :
    (finishCheckPartitionVersion c4Txn c4Db).ok = false ∧
    c4Db.getTable 2 = none ∧
    (⟨2, [⟨20, 9⟩]⟩ : TableCommitInfo) ∈
      (finishCheckPartitionVersion c4Txn c4Db).table_commit_infos := by
  decide

/-- C4 (amended): the partition-version check returns true exactly when
every surviving partition (one whose table and partition still exist)
has visible_version + 1 equal to its commit-info version; when it
returns true, every entry whose table or partition no longer exists has
been removed; when it returns false it has recorded a wait-for-publishing
error message on the transaction and finishTransaction returns without a
publish result, leaving the transaction status (COMMITTED) unchanged —
but entries after the failing partition, dangling or not, are untouched. -/
theorem finishCheckPartitionVersion_spec (txn : TransactionState) (db : DbM) :
    ((finishCheckPartitionVersion txn db).ok = true ↔
      ∀ tci ∈ txn.table_commit_infos, ∀ table, db.getTable tci.table_id = some table →
        ∀ pci ∈ tci.partition_commit_infos, ∀ p,
          table.getPartition pci.partition_id = some p →
            p.visible_version = pci.version - 1) ∧
    ((finishCheckPartitionVersion txn db).ok = true →
      (finishCheckPartitionVersion txn db).table_commit_infos =
        txn.table_commit_infos.filterMap (fun tci =>
          (db.getTable tci.table_id).map (fun table =>
            (⟨tci.table_id,
              tci.partition_commit_infos.filter
                (fun pci => (table.getPartition pci.partition_id).isSome)⟩ :
              TableCommitInfo)))) ∧
    ((finishCheckPartitionVersion txn db).ok = false →
      (finishCheckPartitionVersion txn db).err_msg.isSome ∧
      (∀ s : MgrState, lookupTxn s.txns txn.transaction_id = some txn →
        ∀ alter_jobs cfg now s' db' res,
          finishTransaction s db txn.transaction_id alter_jobs cfg now =
            .ok ((s', db'), res) →
          res = none ∧ db' = db ∧
            (lookupTxn s'.txns txn.transaction_id).map (fun t => t.status) =
              some txn.status)) := by
  refine ⟨?_, ?_, ?_⟩
  · unfold finishCheckPartitionVersion
    rw [checkTablesVersion_ok_iff]
    constructor
    · intro h tci hm table ht pci hp p hpp
      exact ((checkPartitionsVersionOfTable_ok_iff table _).mp (h tci hm table ht))
        pci hp p hpp
    · intro h tci hm table ht
      exact (checkPartitionsVersionOfTable_ok_iff table _).mpr
        (fun pci hp p hpp => h tci hm table ht pci hp p hpp)
  · intro h
    exact checkTablesVersion_ok_infos db _ h
  · intro h
    refine ⟨checkTablesVersion_fail_msg db _ h, ?_⟩
    intro s hlook alter_jobs cfg now s' db' res hfin
    have h0 : finishTransaction s db txn.transaction_id alter_jobs cfg now =
        .ok (finishTransactionWithTxn s db txn alter_jobs cfg now) := by
      unfold finishTransaction
      rw [hlook]
    rw [h0] at hfin
    unfold finishTransactionWithTxn at hfin
    rw [if_pos h] at hfin
    simp only [Except.ok.injEq, Prod.mk.injEq] at hfin
    rcases hfin with ⟨⟨h1, h2⟩, h3⟩
    refine ⟨h3.symm, h2.symm, ?_⟩
    rw [← h1]
    simp only [mutateTxn, finishTxn1]
    have hl := lookup_upsert_self s.txns
      { txn with
        table_commit_infos := (finishCheckPartitionVersion txn db).table_commit_infos,
        err_msg := match (finishCheckPartitionVersion txn db).err_msg with
                   | some m => some m
                   | none => txn.err_msg }
    simp only at hl
    rw [hl]
    rfl

/-- Witness for C4 amended: at the counterexample instance the failure
records an error message; a second instance where every check passes
prunes exactly the dangling entries. -/
theorem finishCheckPartitionVersion_spec_witness :
    ((finishCheckPartitionVersion c4Txn c4Db).ok = false ∧
      (finishCheckPartitionVersion c4Txn c4Db).err_msg.isSome) ∧
    ((finishCheckPartitionVersion
        { c4Txn with table_commit_infos := [⟨1, [⟨10, 6⟩]⟩, ⟨2, [⟨20, 9⟩]⟩] }
        c4Db).ok = true ∧
      (finishCheckPartitionVersion
        { c4Txn with table_commit_infos := [⟨1, [⟨10, 6⟩]⟩, ⟨2, [⟨20, 9⟩]⟩] }
        c4Db).table_commit_infos = [⟨1, [⟨10, 6⟩]⟩]) := by
  have H1 := (finishCheckPartitionVersion_spec c4Txn c4Db).2.2 (by decide)
  have H2 := (finishCheckPartitionVersion_spec
      { c4Txn with table_commit_infos := [⟨1, [⟨10, 6⟩]⟩, ⟨2, [⟨20, 9⟩]⟩] } c4Db).2.1
      (by decide)
  refine ⟨⟨by decide, H1.1⟩, ⟨by decide, ?_⟩⟩
  rw [H2]
  decide

/-! ### Lemmas about the publish quorum check (C2) -/

/-- The publish result determined by the branch trace alone. -/
def resultOfLogs (logs : List TabletPublishLog) : PublishResult :=
  if ∃ e ∈ logs, e.branch = .failed then .FAILED
  else if ∃ e ∈ logs, e.branch = .timeoutPromoted then .TIMEOUT_SUCC
  else .QUORUM_SUCC

/-- What each branch of the per-tablet step guarantees about its log
entry. -/
def entryOk (allow : Bool) (e : TabletPublishLog) : Prop :=
  (e.branch = .quorumWithFailed ∧ e.required ≤ e.succ_num) ∨
  (e.branch = .timeoutPromoted ∧ e.succ_num < e.required ∧
    allow = true ∧ 0 < e.succ_num) ∨
  (e.branch = .failed ∧ e.succ_num < e.required ∧
    ¬ (allow = true ∧ 0 < e.succ_num))

/-- Invariant of the quorum fold. -/
structure QuorumInv (allow : Bool) (st : QuorumState) : Prop where
  entries : ∀ e ∈ st.logs, entryOk allow e
  result_eq : st.result = resultOfLogs st.logs
  failed_msg : st.result = .FAILED → st.err_msg.isSome

lemma resultOfLogs_append_other (logs : List TabletPublishLog) (e : TabletPublishLog)
    (h1 : e.branch ≠ .failed) (h2 : e.branch ≠ .timeoutPromoted) :
    resultOfLogs (logs ++ [e]) = resultOfLogs logs := by
  have hf : (∃ x ∈ logs ++ [e], x.branch = .failed) ↔
      (∃ x ∈ logs, x.branch = .failed) := by
    simp only [List.mem_append, List.mem_singleton]
    constructor
    · rintro ⟨x, hx | rfl, hb⟩
      · exact ⟨x, hx, hb⟩
      · exact absurd hb h1
    · rintro ⟨x, hx, hb⟩
      exact ⟨x, Or.inl hx, hb⟩
  have ht : (∃ x ∈ logs ++ [e], x.branch = .timeoutPromoted) ↔
      (∃ x ∈ logs, x.branch = .timeoutPromoted) := by
    simp only [List.mem_append, List.mem_singleton]
    constructor
    · rintro ⟨x, hx | rfl, hb⟩
      · exact ⟨x, hx, hb⟩
      · exact absurd hb h2
    · rintro ⟨x, hx, hb⟩
      exact ⟨x, Or.inl hx, hb⟩
  unfold resultOfLogs
  simp only [hf, ht]

lemma resultOfLogs_append_timeout (logs : List TabletPublishLog) (e : TabletPublishLog)
    (h : e.branch = .timeoutPromoted) :
    resultOfLogs (logs ++ [e]) =
      (if resultOfLogs logs = .FAILED then .FAILED else .TIMEOUT_SUCC) := by
  have h1 : e.branch ≠ .failed := by rw [h]; decide
  have hf : (∃ x ∈ logs ++ [e], x.branch = .failed) ↔
      (∃ x ∈ logs, x.branch = .failed) := by
    simp only [List.mem_append, List.mem_singleton]
    constructor
    · rintro ⟨x, hx | rfl, hb⟩
      · exact ⟨x, hx, hb⟩
      · exact absurd hb h1
    · rintro ⟨x, hx, hb⟩
      exact ⟨x, Or.inl hx, hb⟩
  have ht : ∃ x ∈ logs ++ [e], x.branch = .timeoutPromoted :=
    ⟨e, List.mem_append.mpr (Or.inr (List.mem_singleton.mpr rfl)), h⟩
  unfold resultOfLogs
  simp only [hf, ht]
  by_cases hlf : ∃ x ∈ logs, x.branch = .failed
  · simp [hlf]
  · simp only [hlf, if_neg, ite_false, if_pos ht]
    by_cases hlt : ∃ x ∈ logs, x.branch = .timeoutPromoted
    · simp [hlt]
    · simp [hlt]

lemma resultOfLogs_append_failed (logs : List TabletPublishLog) (e : TabletPublishLog)
    (h : e.branch = .failed) : resultOfLogs (logs ++ [e]) = .FAILED := by
  have hf : ∃ x ∈ logs ++ [e], x.branch = .failed :=
    ⟨e, List.mem_append.mpr (Or.inr (List.mem_singleton.mpr rfl)), h⟩
  unfold resultOfLogs
  rw [if_pos hf]

lemma quorumStep_inv (allow : Bool) (tasks : List (Nat × Option PublishVersionTask))
    (chk : Bool) (st : QuorumState) (c : TabletPubCtx) (h : QuorumInv allow st) :
    QuorumInv allow (quorumStep allow tasks chk st c) := by
  unfold quorumStep
  simp only []
  by_cases h1 : c.required ≤ (classifyTabletPublish c.tablet.tablet_id c.alter_loaded
      c.new_version tasks chk c.tablet.replicas st.errs).1.1
  · rw [if_pos h1]
    by_cases h2 : (classifyTabletPublish c.tablet.tablet_id c.alter_loaded
        c.new_version tasks chk c.tablet.replicas st.errs).1.2.1 +
        (classifyTabletPublish c.tablet.tablet_id c.alter_loaded
          c.new_version tasks chk c.tablet.replicas st.errs).1.2.2 ≠ 0
    · rw [if_pos h2]
      refine ⟨?_, ?_, ?_⟩
      · intro e he
        rcases List.mem_append.mp he with hm | hm
        · exact h.entries e hm
        · rw [List.mem_singleton.mp hm]
          exact Or.inl ⟨rfl, h1⟩
      · simp only
        have harg := resultOfLogs_append_other st.logs
          ⟨c.tablet.tablet_id,
           (classifyTabletPublish c.tablet.tablet_id c.alter_loaded c.new_version tasks chk
             c.tablet.replicas st.errs).1.1, c.required, .quorumWithFailed⟩
          (fun hb => TabletPublishBranch.noConfusion hb)
          (fun hb => TabletPublishBranch.noConfusion hb)
        rw [harg]
        exact h.result_eq
      · exact h.failed_msg
    · rw [if_neg h2]
      exact ⟨h.entries, h.result_eq, h.failed_msg⟩
  · rw [if_neg h1]
    by_cases h3 : allow = true ∧ 0 < (classifyTabletPublish c.tablet.tablet_id
        c.alter_loaded c.new_version tasks chk c.tablet.replicas st.errs).1.1
    · rw [if_pos h3]
      refine ⟨?_, ?_, ?_⟩
      · intro e he
        rcases List.mem_append.mp he with hm | hm
        · exact h.entries e hm
        · rw [List.mem_singleton.mp hm]
          exact Or.inr (Or.inl ⟨rfl, Nat.lt_of_not_le h1, h3.1, h3.2⟩)
      · simp only
        rw [resultOfLogs_append_timeout _ _ rfl, ← h.result_eq]
        cases hst : st.result <;> simp
      · simp only
        intro hres
        apply h.failed_msg
        by_cases hq : st.result = .QUORUM_SUCC
        · rw [if_pos hq] at hres
          cases hres
        · rw [if_neg hq] at hres
          exact hres
    · rw [if_neg h3]
      refine ⟨?_, ?_, ?_⟩
      · intro e he
        rcases List.mem_append.mp he with hm | hm
        · exact h.entries e hm
        · rw [List.mem_singleton.mp hm]
          exact Or.inr (Or.inr ⟨rfl, Nat.lt_of_not_le h1, h3⟩)
      · simp only
        rw [resultOfLogs_append_failed _ _ rfl]
      · intro
        rfl

lemma quorumFold_inv (allow : Bool) (tasks : List (Nat × Option PublishVersionTask))
    (chk : Bool) :
    ∀ (ctxs : List TabletPubCtx) (st : QuorumState), QuorumInv allow st →
      QuorumInv allow (ctxs.foldl (quorumStep allow tasks chk) st) := by
  intro ctxs
  induction ctxs with
  | nil => intro st h; exact h
  | cons c cs ih =>
    intro st h
    rw [List.foldl_cons]
    exact ih _ (quorumStep_inv allow tasks chk st c h)

lemma finishCheckQuorumReplicas_inv (txn : TransactionState)
    (related : List (TableM × PartitionM)) (alter_jobs : Int → List Nat)
    (cfg : PublishCfg) (now : Int) :
    QuorumInv (allowPublishOneSucc cfg txn.first_publish_version_time now)
      (finishCheckQuorumReplicas txn related alter_jobs cfg now) := by
  unfold finishCheckQuorumReplicas
  apply quorumFold_inv
  refine ⟨?_, ?_, ?_⟩
  · intro e he
    exact absurd he (List.not_mem_nil e)
  · simp [resultOfLogs]
  · intro hres
    cases hres

lemma lookupTxn_id {l : List TransactionState} {tid : Nat} {t : TransactionState}
    (h : lookupTxn l tid = some t) : t.transaction_id = tid := by
  unfold lookupTxn at h
  have := List.find?_some h
  simpa using this

/-- C2: when finishing a COMMITTED transaction whose partition-version
check passes and some tablet is under quorum, the publish verdict is
TIMEOUT_SUCC and the transaction still becomes VISIBLE provided the
publish wait time is positive and has elapsed since the first publish
(allowPublishOneSucc) and every under-quorum tablet has at least one
success replica; otherwise the verdict is FAILED, an error message is
recorded, and the transaction stays COMMITTED.  txn1 is the transaction
after the partition check pruned its commit infos (an in-place mutation
in the source) and q the quorum check's outcome on it. -/
theorem finishTransaction_quorum_spec (s : MgrState) (db : DbM) (transaction_id : Nat)
    (alter_jobs : Int → List Nat) (cfg : PublishCfg) (now : Int)
    (txn txn1 : TransactionState) (q : QuorumState)
    (hlook : lookupTxn s.txns transaction_id = some txn)
    (hst : txn.status = .COMMITTED)
    (hpv : (finishCheckPartitionVersion txn db).ok = true)
    (htxn1 : txn1 = finishTxn1 txn db)
    (hq : q = finishQuorumOf txn db alter_jobs cfg now)
    (hunder : ∃ e ∈ q.logs, e.succ_num < e.required) :
    ((allowPublishOneSucc cfg txn.first_publish_version_time now = true ∧
        (∀ e ∈ q.logs, e.succ_num < e.required → 0 < e.succ_num)) →
      q.result = .TIMEOUT_SUCC ∧
      (∀ s' db' res,
        finishTransaction s db transaction_id alter_jobs cfg now = .ok ((s', db'), res) →
        res = some .TIMEOUT_SUCC ∧
          (lookupTxn s'.txns transaction_id).map (fun t => t.status) = some .VISIBLE)) ∧
    (¬ (allowPublishOneSucc cfg txn.first_publish_version_time now = true ∧
        (∀ e ∈ q.logs, e.succ_num < e.required → 0 < e.succ_num)) →
      q.result = .FAILED ∧ q.err_msg.isSome ∧
      (∀ s' db' res,
        finishTransaction s db transaction_id alter_jobs cfg now = .ok ((s', db'), res) →
        res = some .FAILED ∧ db' = db ∧
          (lookupTxn s'.txns transaction_id).map (fun t => t.status) =
            some .COMMITTED)) := by
  have htid : txn.transaction_id = transaction_id := lookupTxn_id hlook
  have hfp : txn1.first_publish_version_time = txn.first_publish_version_time := by
    rw [htxn1]
    rfl
  have hinv : QuorumInv (allowPublishOneSucc cfg txn.first_publish_version_time now) q := by
    rw [hq, ← hfp, htxn1]
    unfold finishQuorumOf
    exact finishCheckQuorumReplicas_inv (finishTxn1 txn db) _ alter_jobs cfg now
  have h0 : finishTransaction s db transaction_id alter_jobs cfg now =
      .ok (finishTransactionWithTxn s db txn alter_jobs cfg now) := by
    unfold finishTransaction
    rw [hlook]
  constructor
  · rintro ⟨hallow, hall⟩
    have hnofail : ¬ ∃ e ∈ q.logs, e.branch = .failed := by
      rintro ⟨e, he, hb⟩
      rcases hinv.entries e he with ⟨hb', -⟩ | ⟨hb', -⟩ | ⟨-, hlt, hno⟩
      · rw [hb] at hb'
        cases hb'
      · rw [hb] at hb'
        cases hb'
      · exact hno ⟨hallow, hall e he hlt⟩
    obtain ⟨e0, he0, hu0⟩ := hunder
    have he0t : e0.branch = .timeoutPromoted := by
      rcases hinv.entries e0 he0 with ⟨-, hge⟩ | ⟨hb, -⟩ | ⟨hb, -, -⟩
      · omega
      · exact hb
      · exact absurd ⟨e0, he0, hb⟩ hnofail
    have hres : q.result = .TIMEOUT_SUCC := by
      rw [hinv.result_eq]
      unfold resultOfLogs
      rw [if_neg hnofail, if_pos ⟨e0, he0, he0t⟩]
    refine ⟨hres, ?_⟩
    intro s' db' res hfin
    rw [h0] at hfin
    unfold finishTransactionWithTxn at hfin
    rw [if_neg (by rw [hpv]; decide)] at hfin
    rw [← hq] at hfin
    rw [if_neg (by rw [hres]; decide)] at hfin
    rw [← htxn1] at hfin
    rw [hres] at hfin
    simp only [Except.ok.injEq, Prod.mk.injEq] at hfin
    rcases hfin with ⟨⟨h1, -⟩, h3⟩
    refine ⟨h3.symm, ?_⟩
    rw [← h1]
    simp only [unprotectUpsertTransactionState]
    have hid : ({ txn1 with
        error_replicas := q.errs,
        err_msg := none,
        status := TransactionStatus.VISIBLE } : TransactionState).transaction_id =
        transaction_id := by
      rw [htxn1]
      exact htid
    rw [← hid, lookup_upsert_self]
    rfl
  · intro hnot
    have hexfail : ∃ e ∈ q.logs, e.branch = .failed := by
      by_cases hallow : allowPublishOneSucc cfg txn.first_publish_version_time now = true
      · have hex : ∃ e ∈ q.logs, e.succ_num < e.required ∧ ¬ 0 < e.succ_num := by
          by_contra hc
          push_neg at hc
          exact hnot ⟨hallow, fun e he hlt => (hc e he hlt)⟩
        obtain ⟨e, he, hlt, hz⟩ := hex
        rcases hinv.entries e he with ⟨-, hge⟩ | ⟨-, -, -, hpos⟩ | ⟨hb, -, -⟩
        · omega
        · exact absurd hpos hz
        · exact ⟨e, he, hb⟩
      · obtain ⟨e0, he0, hu0⟩ := hunder
        rcases hinv.entries e0 he0 with ⟨-, hge⟩ | ⟨-, -, ha, -⟩ | ⟨hb, -, -⟩
        · omega
        · exact absurd ha hallow
        · exact ⟨e0, he0, hb⟩
    have hres : q.result = .FAILED := by
      rw [hinv.result_eq]
      unfold resultOfLogs
      rw [if_pos hexfail]
    refine ⟨hres, hinv.failed_msg hres, ?_⟩
    intro s' db' res hfin
    rw [h0] at hfin
    unfold finishTransactionWithTxn at hfin
    rw [if_neg (by rw [hpv]; decide)] at hfin
    rw [← hq] at hfin
    rw [if_pos hres] at hfin
    rw [← htxn1] at hfin
    simp only [Except.ok.injEq, Prod.mk.injEq] at hfin
    rcases hfin with ⟨⟨h1, h2⟩, h3⟩
    refine ⟨h3.symm, h2.symm, ?_⟩
    rw [← h1]
    simp only [mutateTxn]
    have hid : ({ txn1 with
        error_replicas := q.errs,
        err_msg := q.err_msg } : TransactionState).transaction_id = transaction_id := by
      rw [htxn1]
      exact htid
    rw [← hid, lookup_upsert_self]
    rw [htxn1]
    show some txn.status = some TransactionStatus.COMMITTED
    rw [hst]

/-- A 2-replica tablet: replica 11 (backend 1) at version 6, replica 12
(backend 2) lagging at version 3. -/
def c2Tablet : TabletM :=
  ⟨50, [1, 2],
   [⟨11, 1, 6, -1, 6, .NORMAL⟩, ⟨12, 2, 3, -1, 3, .NORMAL⟩]⟩

/-- A COMMITTED transaction over partition 10 at commit version 6;
backend 1 reports tablet 50 succeeded, backend 2 does not. -/
def c2Txn : TransactionState :=
  { transaction_id := 7
    label := "L2"
    request_id := none
    routine_load := false
    status := .COMMITTED
    table_id_list := [1]
    loaded_tbl_indexes := []
    table_commit_infos := [⟨1, [⟨10, 6⟩]⟩]
    error_replicas := []
    publish_tasks := [(1, some ⟨true, some [50], none⟩), (2, some ⟨true, some [], none⟩)]
    first_publish_version_time := 1000
    err_msg := none }

def c2Db : DbM := ⟨[⟨1, .NORMAL, [⟨10, 5, 7, 2, [⟨100, [c2Tablet]⟩]⟩]⟩]⟩

def c2State : MgrState := ⟨[c2Txn], [("L2", [7])], 8⟩

def c2Cfg : PublishCfg := ⟨30, true⟩

def c2Alter : Int → List Nat := fun _ => []

/-- C2 witness: tablet 50 has only 1 of 2 required successes, the 30 s
publish wait has elapsed at now = 32000 ms, so the verdict is
TIMEOUT_SUCC and the finished transaction is VISIBLE. -/
theorem finishTransaction_quorum_spec_witness :
    (finishQuorumOf c2Txn c2Db c2Alter c2Cfg 32000).result =
      PublishResult.TIMEOUT_SUCC ∧
    (finishTransactionWithTxn c2State c2Db c2Txn c2Alter c2Cfg 32000).2 =
      some PublishResult.TIMEOUT_SUCC ∧
    (lookupTxn (finishTransactionWithTxn c2State c2Db c2Txn c2Alter c2Cfg 32000).1.1.txns
        7).map (fun t => t.status) = some TransactionStatus.VISIBLE := by
  have h := (finishTransaction_quorum_spec c2State c2Db 7 c2Alter c2Cfg 32000 c2Txn
      (finishTxn1 c2Txn c2Db) (finishQuorumOf c2Txn c2Db c2Alter c2Cfg 32000)
      rfl rfl (by decide) rfl rfl (by decide)).1 (by decide)
  refine ⟨h.1, ?_⟩
  have h2 := h.2 (finishTransactionWithTxn c2State c2Db c2Txn c2Alter c2Cfg 32000).1.1
      (finishTransactionWithTxn c2State c2Db c2Txn c2Alter c2Cfg 32000).1.2
      (finishTransactionWithTxn c2State c2Db c2Txn c2Alter c2Cfg 32000).2 (by rfl)
  exact ⟨h2.1, h2.2⟩

/-! ### Claim C1: the at-most-one-non-aborted-per-label invariant

The manager operations are assembled into a transition system over the
manager state and the catalog, and the invariant is checked over all
reachable states. -/

/-- clearTransactionState (lines 1736-1750), the per-transaction step of
removeUselessTxns: drop the state from the maps and unindex its label.
Only states in the final-status map (final status in this model) are
ever cleared, because the deques hold only final states. -/
def clearTransactionState (s : MgrState) (txnId : Nat) : MgrState :=
  match lookupTxn s.txns txnId with
  | none => s
  | some txn =>
    if txn.status.isFinalStatus then
      { s with
        txns := s.txns.filter (fun t => t.transaction_id != txnId),
        label_to_txn_ids := removeLabelId s.label_to_txn_ids txn.label txnId }
    else s

/-- The per-database manager together with the catalog it acts on. -/
structure TxnSystem where
  mgr : MgrState
  db : DbM

/-- Number of transactions under a label whose status is not ABORTED. -/
def labelCount (l : List TransactionState) (lab : String) : Nat :=
  (l.filter (fun t => t.label == lab && !(t.status == TransactionStatus.ABORTED))).length

def nonAbortedWithLabel (s : MgrState) (lab : String) : Nat :=
  labelCount s.txns lab

/-- One invocation of a public manager operation with arbitrary
arguments, the error outcomes leaving the state unchanged subsumed by
the operations' own definitions; envStep lets the environment alter the
catalog between operations. -/
inductive TxnStep : TxnSystem → TxnSystem → Prop
  | beginStep (sys : TxnSystem) (tbls : List Int) (label : String) (rid : Option Nat)
      (rl : Bool) (quota : Nat) :
      TxnStep sys ⟨(beginTransaction sys.mgr tbls label rid rl quota).2, sys.db⟩
  | commitStep (sys : TxnSystem) (tids : List Int) (tid : Nat)
      (infos : List TabletCommitInfo) (tinv : List (Nat × TabletMetaM)) (is2PC : Bool)
      (s' : MgrState) (db' : DbM)
      (h : commitTransaction sys.mgr sys.db tids tid infos tinv is2PC = .ok (s', db')) :
      TxnStep sys ⟨s', db'⟩
  | precommitStep (sys : TxnSystem) (tids : List Int) (tid : Nat)
      (infos : List TabletCommitInfo) (tinv : List (Nat × TabletMetaM)) (s' : MgrState)
      (h : preCommitTransaction2PC sys.mgr sys.db tids tid infos tinv = .ok s') :
      TxnStep sys ⟨s', sys.db⟩
  | abortStep (sys : TxnSystem) (tid : Nat) (s' : MgrState)
      (h : abortTransaction sys.mgr tid = .ok s') :
      TxnStep sys ⟨s', sys.db⟩
  | finishStep (sys : TxnSystem) (tid : Nat) (alter_jobs : Int → List Nat)
      (cfg : PublishCfg) (now : Int) (s' : MgrState) (db' : DbM)
      (res : Option PublishResult)
      (h : finishTransaction sys.mgr sys.db tid alter_jobs cfg now =
        .ok ((s', db'), res)) :
      TxnStep sys ⟨s', db'⟩
  | expireStep (sys : TxnSystem) (tid : Nat) :
      TxnStep sys ⟨clearTransactionState sys.mgr tid, sys.db⟩
  | envStep (sys : TxnSystem) (db' : DbM) :
      TxnStep sys ⟨sys.mgr, db'⟩

/-- The same system with finishTransaction restricted to COMMITTED
transactions, which is how the sole caller (the publish daemon working
off getCommittedTxnList) invokes it. -/
inductive TxnStepG : TxnSystem → TxnSystem → Prop
  | beginStep (sys : TxnSystem) (tbls : List Int) (label : String) (rid : Option Nat)
      (rl : Bool) (quota : Nat) :
      TxnStepG sys ⟨(beginTransaction sys.mgr tbls label rid rl quota).2, sys.db⟩
  | commitStep (sys : TxnSystem) (tids : List Int) (tid : Nat)
      (infos : List TabletCommitInfo) (tinv : List (Nat × TabletMetaM)) (is2PC : Bool)
      (s' : MgrState) (db' : DbM)
      (h : commitTransaction sys.mgr sys.db tids tid infos tinv is2PC = .ok (s', db')) :
      TxnStepG sys ⟨s', db'⟩
  | precommitStep (sys : TxnSystem) (tids : List Int) (tid : Nat)
      (infos : List TabletCommitInfo) (tinv : List (Nat × TabletMetaM)) (s' : MgrState)
      (h : preCommitTransaction2PC sys.mgr sys.db tids tid infos tinv = .ok s') :
      TxnStepG sys ⟨s', sys.db⟩
  | abortStep (sys : TxnSystem) (tid : Nat) (s' : MgrState)
      (h : abortTransaction sys.mgr tid = .ok s') :
      TxnStepG sys ⟨s', sys.db⟩
  | finishStep (sys : TxnSystem) (tid : Nat) (alter_jobs : Int → List Nat)
      (cfg : PublishCfg) (now : Int) (s' : MgrState) (db' : DbM)
      (res : Option PublishResult) (txn : TransactionState)
      (hfound : lookupTxn sys.mgr.txns tid = some txn)
      (hst : txn.status = TransactionStatus.COMMITTED)
      (h : finishTransaction sys.mgr sys.db tid alter_jobs cfg now =
        .ok ((s', db'), res)) :
      TxnStepG sys ⟨s', db'⟩
  | expireStep (sys : TxnSystem) (tid : Nat) :
      TxnStepG sys ⟨clearTransactionState sys.mgr tid, sys.db⟩
  | envStep (sys : TxnSystem) (db' : DbM) :
      TxnStepG sys ⟨sys.mgr, db'⟩

/-- The freshly constructed per-database manager over an empty catalog. -/
def initTxnSystem : TxnSystem := ⟨⟨[], [], 1⟩, ⟨[]⟩⟩

def ReachableTxn (sys : TxnSystem) : Prop :=
  Relation.ReflTransGen TxnStep initTxnSystem sys

def ReachableTxnG (sys : TxnSystem) : Prop :=
  Relation.ReflTransGen TxnStepG initTxnSystem sys

/-- The structural invariant of the manager maps: distinct ids, ids
below the generator, the label index covering every transaction, and
the claimed at-most-one non-aborted transaction per label. -/
structure MgrInv (s : MgrState) : Prop where
  nodup : (s.txns.map (fun t => t.transaction_id)).Nodup
  fresh : ∀ t ∈ s.txns, t.transaction_id < s.next_txn_id
  complete : ∀ t ∈ s.txns, t.transaction_id ∈ lookupLabelIds s.label_to_txn_ids t.label
  amo : ∀ lab, labelCount s.txns lab ≤ 1

/-! Lemmas about the map helpers. -/

lemma lookupTxn_mem {l : List TransactionState} {tid : Nat} {t : TransactionState}
    (h : lookupTxn l tid = some t) : t ∈ l ∧ t.transaction_id = tid :=
  ⟨List.mem_of_find?_eq_some h, lookupTxn_id h⟩

lemma lookupTxn_of_mem {l : List TransactionState} {t : TransactionState}
    (hnd : (l.map (fun u => u.transaction_id)).Nodup) (hm : t ∈ l) :
    lookupTxn l t.transaction_id = some t := by
  induction l with
  | nil => cases hm
  | cons x xs ih =>
    rw [List.map_cons, List.nodup_cons] at hnd
    rcases List.mem_cons.mp hm with rfl | hm'
    · unfold lookupTxn
      rw [List.find?_cons_of_pos _ (by simp)]
    · have hne : ¬ x.transaction_id = t.transaction_id := by
        intro he
        exact hnd.1 (he ▸ List.mem_map.mpr ⟨t, hm', rfl⟩)
      unfold lookupTxn at ih ⊢
      rw [List.find?_cons_of_neg _ (by simpa using hne)]
      exact ih hnd.2 hm'

lemma upsert_append {l : List TransactionState} {t : TransactionState}
    (h : ∀ u ∈ l, ¬ u.transaction_id = t.transaction_id) :
    upsertTxnList l t = l ++ [t] := by
  induction l with
  | nil => rfl
  | cons x xs ih =>
    unfold upsertTxnList
    rw [if_neg (h x (List.mem_cons_self x xs))]
    rw [ih (fun u hu => h u (List.mem_cons_of_mem x hu))]
    rfl

lemma upsert_split {l : List TransactionState} {t old : TransactionState}
    (h : lookupTxn l t.transaction_id = some old) :
    ∃ l1 l2, l = l1 ++ old :: l2 ∧ upsertTxnList l t = l1 ++ t :: l2 := by
  induction l with
  | nil => cases h
  | cons x xs ih =>
    by_cases hx : x.transaction_id = t.transaction_id
    · have hox : old = x := by
        unfold lookupTxn at h
        rw [List.find?_cons_of_pos _ (by simpa using hx)] at h
        cases h
        rfl
      refine ⟨[], xs, by rw [hox]; rfl, ?_⟩
      unfold upsertTxnList
      rw [if_pos hx]
      rfl
    · have h' : lookupTxn xs t.transaction_id = some old := by
        unfold lookupTxn at h ⊢
        rwa [List.find?_cons_of_neg _ (by simpa using hx)] at h
      obtain ⟨l1, l2, he1, he2⟩ := ih h'
      refine ⟨x :: l1, l2, by rw [he1]; rfl, ?_⟩
      unfold upsertTxnList
      rw [if_neg hx, he2]
      rfl

lemma mem_upsert {l : List TransactionState} {t old u : TransactionState}
    (h : lookupTxn l t.transaction_id = some old) (hm : u ∈ upsertTxnList l t) :
    u = t ∨ u ∈ l := by
  obtain ⟨l1, l2, he1, he2⟩ := upsert_split h
  rw [he2] at hm
  rw [he1]
  rcases List.mem_append.mp hm with h1 | h2
  · exact Or.inr (List.mem_append.mpr (Or.inl h1))
  · rcases List.mem_cons.mp h2 with rfl | h3
    · exact Or.inl rfl
    · exact Or.inr (List.mem_append.mpr (Or.inr (List.mem_cons_of_mem _ h3)))

lemma upsert_map_id {l : List TransactionState} {t old : TransactionState}
    (h : lookupTxn l t.transaction_id = some old) :
    (upsertTxnList l t).map (fun u => u.transaction_id) =
      l.map (fun u => u.transaction_id) := by
  obtain ⟨l1, l2, he1, he2⟩ := upsert_split h
  have hid : old.transaction_id = t.transaction_id := (lookupTxn_mem h).2
  rw [he2, he1]
  simp only [List.map_append, List.map_cons]
  rw [hid]

lemma labelCount_append (l1 l2 : List TransactionState) (lab : String) :
    labelCount (l1 ++ l2) lab = labelCount l1 lab + labelCount l2 lab := by
  unfold labelCount
  rw [List.filter_append, List.length_append]

lemma labelCount_cons (t : TransactionState) (l : List TransactionState) (lab : String) :
    labelCount (t :: l) lab =
      (if (t.label == lab && !(t.status == TransactionStatus.ABORTED)) = true
       then 1 else 0) + labelCount l lab := by
  unfold labelCount
  rw [List.filter_cons]
  by_cases hc : (t.label == lab && !(t.status == TransactionStatus.ABORTED)) = true
  · rw [if_pos hc, if_pos hc, List.length_cons]
    omega
  · rw [if_neg hc, if_neg hc]
    omega

lemma labelPred_iff (t : TransactionState) (lab : String) :
    (t.label == lab && !(t.status == TransactionStatus.ABORTED)) = true ↔
      t.label = lab ∧ ¬ t.status = TransactionStatus.ABORTED := by
  rw [Bool.and_eq_true, beq_iff_eq, Bool.not_eq_true', beq_eq_false_iff_ne]

lemma labelCount_upsert_le {l : List TransactionState} {t old : TransactionState}
    (h : lookupTxn l t.transaction_id = some old)
    (hlab : t.label = old.label)
    (hab : old.status = TransactionStatus.ABORTED →
      t.status = TransactionStatus.ABORTED) :
    ∀ lab, labelCount (upsertTxnList l t) lab ≤ labelCount l lab := by
  obtain ⟨l1, l2, he1, he2⟩ := upsert_split h
  intro lab
  rw [he2, he1, labelCount_append, labelCount_append, labelCount_cons, labelCount_cons]
  have hle : (if (t.label == lab && !(t.status == TransactionStatus.ABORTED)) = true
       then 1 else 0) ≤
      (if (old.label == lab && !(old.status == TransactionStatus.ABORTED)) = true
       then 1 else 0) := by
    by_cases hc : (t.label == lab && !(t.status == TransactionStatus.ABORTED)) = true
    · have hc' := (labelPred_iff t lab).mp hc
      have hold : (old.label == lab && !(old.status == TransactionStatus.ABORTED)) = true :=
        (labelPred_iff old lab).mpr
          ⟨by rw [← hlab]; exact hc'.1, fun ha => hc'.2 (hab ha)⟩
      rw [if_pos hc, if_pos hold]
    · rw [if_neg hc]
      omega
  omega

lemma addLabelId_self (idx : List (String × List Nat)) (lab : String) (tid : Nat) :
    tid ∈ lookupLabelIds (addLabelId idx lab tid) lab := by
  induction idx with
  | nil =>
    unfold addLabelId lookupLabelIds
    rw [List.find?_cons_of_pos _ (by simp)]
    exact List.mem_singleton.mpr rfl
  | cons e rest ih =>
    unfold addLabelId
    by_cases he : e.1 = lab
    · rw [if_pos he]
      unfold lookupLabelIds
      rw [List.find?_cons_of_pos _ (by simpa using he)]
      show tid ∈ (if tid ∈ e.2 then e.2 else tid :: e.2)
      by_cases hm : tid ∈ e.2
      · rwa [if_pos hm]
      · rw [if_neg hm]
        exact List.mem_cons_self tid e.2
    · rw [if_neg he]
      unfold lookupLabelIds at ih ⊢
      rw [List.find?_cons_of_neg _ (by simpa using he)]
      exact ih

lemma addLabelId_mono (idx : List (String × List Nat)) (lab lab' : String)
    (tid x : Nat) (h : x ∈ lookupLabelIds idx lab') :
    x ∈ lookupLabelIds (addLabelId idx lab tid) lab' := by
  induction idx with
  | nil =>
    unfold lookupLabelIds at h
    simp at h
  | cons e rest ih =>
    unfold addLabelId
    by_cases he : e.1 = lab
    · rw [if_pos he]
      unfold lookupLabelIds at h ⊢
      by_cases he' : e.1 = lab'
      · rw [List.find?_cons_of_pos _ (by simpa using he')] at h
        rw [List.find?_cons_of_pos _ (by simpa using he')]
        show x ∈ (if tid ∈ e.2 then e.2 else tid :: e.2)
        by_cases hm : tid ∈ e.2
        · rwa [if_pos hm]
        · rw [if_neg hm]
          exact List.mem_cons_of_mem tid h
      · rw [List.find?_cons_of_neg _ (by simpa using he')] at h
        rw [List.find?_cons_of_neg _ (by simpa using he')]
        exact h
    · rw [if_neg he]
      unfold lookupLabelIds at h ⊢
      by_cases he' : e.1 = lab'
      · rw [List.find?_cons_of_pos _ (by simpa using he')] at h
        rw [List.find?_cons_of_pos _ (by simpa using he')]
        exact h
      · rw [List.find?_cons_of_neg _ (by simpa using he')] at h
        rw [List.find?_cons_of_neg _ (by simpa using he')]
        exact ih h

lemma removeLabelId_mono (idx : List (String × List Nat)) (lab lab' : String)
    (tid x : Nat) (hx : ¬ x = tid) (h : x ∈ lookupLabelIds idx lab') :
    x ∈ lookupLabelIds (removeLabelId idx lab tid) lab' := by
  induction idx with
  | nil => exact h
  | cons e rest ih =>
    unfold removeLabelId
    by_cases he : e.1 = lab
    · rw [if_pos he]
      show x ∈ lookupLabelIds
        (if (e.2.filter (fun y => y != tid)).isEmpty then rest
         else (e.1, e.2.filter (fun y => y != tid)) :: rest) lab'
      by_cases he' : e.1 = lab'
      · unfold lookupLabelIds at h
        rw [List.find?_cons_of_pos _ (by simpa using he')] at h
        have hxf : x ∈ e.2.filter (fun y => y != tid) :=
          List.mem_filter.mpr ⟨h, by simpa using hx⟩
        have hne : (e.2.filter (fun y => y != tid)).isEmpty = false := by
          cases hfe : e.2.filter (fun y => y != tid) with
          | nil => rw [hfe] at hxf; cases hxf
          | cons a as => rfl
        rw [if_neg (by rw [hne]; exact Bool.false_ne_true)]
        unfold lookupLabelIds
        rw [List.find?_cons_of_pos _ (by simpa using he')]
        exact hxf
      · unfold lookupLabelIds at h
        rw [List.find?_cons_of_neg _ (by simpa using he')] at h
        by_cases hemp : (e.2.filter (fun y => y != tid)).isEmpty
        · rw [if_pos hemp]
          exact h
        · rw [if_neg hemp]
          unfold lookupLabelIds
          rw [List.find?_cons_of_neg _ (by simpa using he')]
          exact h
    · rw [if_neg he]
      unfold lookupLabelIds at h ⊢
      by_cases he' : e.1 = lab'
      · rw [List.find?_cons_of_pos _ (by simpa using he')] at h
        rw [List.find?_cons_of_pos _ (by simpa using he')]
        exact h
      · rw [List.find?_cons_of_neg _ (by simpa using he')] at h
        rw [List.find?_cons_of_neg _ (by simpa using he')]
        exact ih h

lemma collectTxns_mem {s : MgrState} {ids : List Nat} {ts : List TransactionState}
    (h : collectTxns s ids = some ts) {tid : Nat} (hm : tid ∈ ids) :
    ∃ u, lookupTxn s.txns tid = some u ∧ u ∈ ts := by
  induction ids generalizing ts with
  | nil => cases hm
  | cons i rest ih =>
    unfold collectTxns at h
    cases hl : lookupTxn s.txns i with
    | none =>
      rw [hl] at h
      cases h
    | some t =>
      rw [hl] at h
      cases hr : collectTxns s rest with
      | none =>
        rw [hr] at h
        cases h
      | some ts' =>
        rw [hr] at h
        cases h
        rcases List.mem_cons.mp hm with rfl | hm'
        · exact ⟨t, hl, List.mem_cons_self t ts'⟩
        · obtain ⟨u, hu1, hu2⟩ := ih hr hm'
          exact ⟨u, hu1, List.mem_cons_of_mem t hu2⟩

/-! The invariant is preserved by the three map-writing primitives. -/

theorem MgrInv.upsertSame {s : MgrState} (inv : MgrInv s) {old t : TransactionState}
    (hl : lookupTxn s.txns t.transaction_id = some old)
    (hlab : t.label = old.label)
    (hab : old.status = TransactionStatus.ABORTED →
      t.status = TransactionStatus.ABORTED) :
    MgrInv (unprotectUpsertTransactionState s t) := by
  have hmem := lookupTxn_mem hl
  refine ⟨?_, ?_, ?_, ?_⟩
  · show ((upsertTxnList s.txns t).map (fun u => u.transaction_id)).Nodup
    rw [upsert_map_id hl]
    exact inv.nodup
  · intro u hu
    show u.transaction_id < s.next_txn_id
    rcases mem_upsert hl hu with rfl | h2
    · rw [← hmem.2]
      exact inv.fresh old hmem.1
    · exact inv.fresh u h2
  · intro u hu
    show u.transaction_id ∈
      lookupLabelIds (addLabelId s.label_to_txn_ids t.label t.transaction_id) u.label
    rcases mem_upsert hl hu with rfl | h2
    · exact addLabelId_self s.label_to_txn_ids u.label u.transaction_id
    · exact addLabelId_mono s.label_to_txn_ids t.label u.label t.transaction_id
        u.transaction_id (inv.complete u h2)
  · intro lab
    show labelCount (upsertTxnList s.txns t) lab ≤ 1
    exact le_trans (labelCount_upsert_le hl hlab hab lab) (inv.amo lab)

theorem MgrInv.mutateSame {s : MgrState} (inv : MgrInv s) {old t : TransactionState}
    (hl : lookupTxn s.txns t.transaction_id = some old)
    (hlab : t.label = old.label)
    (hab : old.status = TransactionStatus.ABORTED →
      t.status = TransactionStatus.ABORTED) :
    MgrInv (mutateTxn s t) := by
  have hmem := lookupTxn_mem hl
  refine ⟨?_, ?_, ?_, ?_⟩
  · show ((upsertTxnList s.txns t).map (fun u => u.transaction_id)).Nodup
    rw [upsert_map_id hl]
    exact inv.nodup
  · intro u hu
    show u.transaction_id < s.next_txn_id
    rcases mem_upsert hl hu with rfl | h2
    · rw [← hmem.2]
      exact inv.fresh old hmem.1
    · exact inv.fresh u h2
  · intro u hu
    show u.transaction_id ∈ lookupLabelIds s.label_to_txn_ids u.label
    rcases mem_upsert hl hu with rfl | h2
    · have h3 := inv.complete old hmem.1
      rw [hmem.2] at h3
      rw [hlab]
      exact h3
    · exact inv.complete u h2
  · intro lab
    show labelCount (upsertTxnList s.txns t) lab ≤ 1
    exact le_trans (labelCount_upsert_le hl hlab hab lab) (inv.amo lab)

theorem MgrInv.insertFresh {s : MgrState} (inv : MgrInv s) {t : TransactionState}
    (hid : t.transaction_id = s.next_txn_id)
    (hzero : labelCount s.txns t.label = 0) :
    MgrInv (unprotectUpsertTransactionState { s with next_txn_id := s.next_txn_id + 1 } t)
    := by
  have hfr : ∀ u ∈ s.txns, ¬ u.transaction_id = t.transaction_id := by
    intro u hu he
    rw [hid] at he
    exact absurd he (Nat.ne_of_lt (inv.fresh u hu))
  have hup : upsertTxnList s.txns t = s.txns ++ [t] := upsert_append hfr
  refine ⟨?_, ?_, ?_, ?_⟩
  · show ((upsertTxnList s.txns t).map (fun u => u.transaction_id)).Nodup
    rw [hup, List.map_append, List.map_cons, List.map_nil]
    refine List.Nodup.append inv.nodup (List.nodup_singleton _) ?_
    intro a ha hb
    obtain ⟨u, hu, he⟩ := List.mem_map.mp ha
    rw [List.mem_singleton.mp hb] at he
    exact hfr u hu he
  · intro u hu
    show u.transaction_id < s.next_txn_id + 1
    have hu2 : u ∈ s.txns ++ [t] := by
      rw [← hup]
      exact hu
    rcases List.mem_append.mp hu2 with h1 | h2
    · exact Nat.lt_succ_of_lt (inv.fresh u h1)
    · rw [List.mem_singleton.mp h2, hid]
      exact Nat.lt_succ_self _
  · intro u hu
    show u.transaction_id ∈
      lookupLabelIds (addLabelId s.label_to_txn_ids t.label t.transaction_id) u.label
    have hu2 : u ∈ s.txns ++ [t] := by
      rw [← hup]
      exact hu
    rcases List.mem_append.mp hu2 with h1 | h2
    · exact addLabelId_mono s.label_to_txn_ids t.label u.label t.transaction_id
        u.transaction_id (inv.complete u h1)
    · rw [List.mem_singleton.mp h2]
      exact addLabelId_self s.label_to_txn_ids t.label t.transaction_id
  · intro lab
    show labelCount (upsertTxnList s.txns t) lab ≤ 1
    rw [hup, labelCount_append]
    have hsing : labelCount [t] lab ≤ 1 := by
      unfold labelCount
      exact le_trans (List.length_filter_le _ _) (by rw [List.length_singleton])
    by_cases hl : t.label = lab
    · subst hl
      rw [hzero]
      omega
    · have hz : labelCount [t] lab = 0 := by
        unfold labelCount
        rw [List.filter_cons,
          if_neg (by
            intro hc
            exact hl ((labelPred_iff t lab).mp hc).1)]
        rfl
      rw [hz]
      have := inv.amo lab
      omega

/-! Preservation of the invariant by every guarded operation. -/

theorem beginTransaction_preserves {s : MgrState} (inv : MgrInv s)
    (tbls : List Int) (label : String) (rid : Option Nat) (rl : Bool) (quota : Nat) :
    MgrInv (beginTransaction s tbls label rid rl quota).2 := by
  unfold beginTransaction
  cases hc : collectTxns s (lookupLabelIds s.label_to_txn_ids label) with
  | none => exact inv
  | some ts =>
    simp only []
    split
    · exact inv
    · split
      · split
        · exact inv
        · exact inv
      · rename_i hfil
        split
        · exact inv
        · refine MgrInv.insertFresh inv rfl ?_
          show labelCount s.txns label = 0
          unfold labelCount
          rw [List.length_eq_zero, List.filter_eq_nil_iff]
          intro u hu hpred
          have hp := (labelPred_iff u label).mp hpred
          have hin : u.transaction_id ∈ lookupLabelIds s.label_to_txn_ids label := by
            rw [← hp.1]
            exact inv.complete u hu
          obtain ⟨v, hv1, hv2⟩ := collectTxns_mem hc hin
          have hv3 : lookupTxn s.txns u.transaction_id = some u :=
            lookupTxn_of_mem inv.nodup hu
          rw [hv3] at hv1
          cases hv1
          have hmemf : u ∈ ts.filter (fun t => !(t.status == TransactionStatus.ABORTED)) :=
            List.mem_filter.mpr ⟨hv2, by simpa using hp.2⟩
          rw [hfil] at hmemf
          cases hmemf

theorem abortTransaction_preserves {s s' : MgrState} (inv : MgrInv s) {tid : Nat}
    (h : abortTransaction s tid = .ok s') : MgrInv s' := by
  unfold abortTransaction at h
  cases hl : lookupTxn s.txns tid with
  | none =>
    simp only [hl] at h
    exact Except.noConfusion h
  | some txn =>
    simp only [hl] at h
    by_cases h1 : txn.status.isFinalStatus = true
    · rw [if_pos h1] at h
      exact Except.noConfusion h
    · rw [if_neg h1] at h
      by_cases h2 : txn.status = TransactionStatus.ABORTED
      · rw [if_pos h2] at h
        exact Except.noConfusion h
      · rw [if_neg h2] at h
        by_cases h3 : txn.status = TransactionStatus.COMMITTED ∨
            txn.status = TransactionStatus.VISIBLE
        · rw [if_pos h3] at h
          exact Except.noConfusion h
        · rw [if_neg h3] at h
          have h4 := Except.ok.inj h
          rw [← h4]
          have hid : txn.transaction_id = tid := lookupTxn_id hl
          have hlx : lookupTxn s.txns txn.transaction_id = some txn := by
            rw [hid]
            exact hl
          exact inv.upsertSame hlx rfl (fun _ => rfl)

theorem unprotectedCommitTransaction_fst_preserves {s : MgrState} {db : DbM}
    (inv : MgrInv s) {txn : TransactionState}
    (hl : lookupTxn s.txns txn.transaction_id = some txn)
    (errs : List Nat) (t2p : List (Int × List Int)) (involved : List Nat) :
    MgrInv (unprotectedCommitTransaction s db txn errs t2p involved).1 := by
  unfold unprotectedCommitTransaction
  by_cases hp : txn.status ≠ TransactionStatus.PREPARE
  · rw [if_pos hp]
    exact inv
  · rw [if_neg hp]
    refine inv.upsertSame hl rfl (fun ha => ?_)
    rw [not_not] at hp
    rw [hp] at ha
    exact TransactionStatus.noConfusion ha

theorem unprotectedCommitTransaction2PC_fst_preserves {s : MgrState} {db : DbM}
    (inv : MgrInv s) {txn : TransactionState}
    (hl : lookupTxn s.txns txn.transaction_id = some txn) :
    MgrInv (unprotectedCommitTransaction2PC s db txn).1 := by
  unfold unprotectedCommitTransaction2PC
  by_cases hp : txn.status ≠ TransactionStatus.PRECOMMITTED
  · rw [if_pos hp]
    exact inv
  · rw [if_neg hp]
    refine inv.mutateSame hl rfl (fun ha => ?_)
    rw [not_not] at hp
    rw [hp] at ha
    exact TransactionStatus.noConfusion ha

theorem commitTransaction_preserves {s s' : MgrState} {db db' : DbM} (inv : MgrInv s)
    {tids : List Int} {tid : Nat} {infos : List TabletCommitInfo}
    {tinv : List (Nat × TabletMetaM)} {is2PC : Bool}
    (h : commitTransaction s db tids tid infos tinv is2PC = .ok (s', db')) :
    MgrInv s' := by
  unfold commitTransaction at h
  cases hl : lookupTxn s.txns tid with
  | none =>
    simp only [hl] at h
    exact Except.noConfusion h
  | some txn =>
    simp only [hl] at h
    have hid : txn.transaction_id = tid := lookupTxn_id hl
    have hl' : lookupTxn s.txns txn.transaction_id = some txn := by
      rw [hid]
      exact hl
    by_cases h1 : txn.status = TransactionStatus.ABORTED
    · rw [if_pos h1] at h
      exact Except.noConfusion h
    · rw [if_neg h1] at h
      by_cases h2 : txn.status = TransactionStatus.VISIBLE
      · rw [if_pos h2] at h
        by_cases hb : is2PC = true
        · rw [if_pos hb] at h
          exact Except.noConfusion h
        · rw [if_neg hb] at h
          have h4 : s = s' := congrArg Prod.fst (Except.ok.inj h)
          rw [← h4]
          exact inv
      · rw [if_neg h2] at h
        by_cases h3 : txn.status = TransactionStatus.COMMITTED
        · rw [if_pos h3] at h
          by_cases hb : is2PC = true
          · rw [if_pos hb] at h
            exact Except.noConfusion h
          · rw [if_neg hb] at h
            have h4 : s = s' := congrArg Prod.fst (Except.ok.inj h)
            rw [← h4]
            exact inv
        · rw [if_neg h3] at h
          by_cases h5 : is2PC = true ∧ txn.status = TransactionStatus.PREPARE
          · rw [if_pos h5] at h
            exact Except.noConfusion h
          · rw [if_neg h5] at h
            by_cases hb : is2PC = true
            · rw [if_pos hb] at h
              have h4 : (unprotectedCommitTransaction2PC s db txn).1 = s' :=
                congrArg Prod.fst (Except.ok.inj h)
              rw [← h4]
              exact unprotectedCommitTransaction2PC_fst_preserves inv hl'
            · rw [if_neg hb] at h
              cases hcc : checkCommitStatus db tids txn infos tinv with
              | error e =>
                simp only [hcc] at h
                exact Except.noConfusion h
              | ok pr =>
                obtain ⟨maps, acc⟩ := pr
                simp only [hcc] at h
                have h4 : (unprotectedCommitTransaction s db txn acc.error_replica_ids
                    maps.table_to_partition acc.involved_backends).1 = s' :=
                  congrArg Prod.fst (Except.ok.inj h)
                rw [← h4]
                exact unprotectedCommitTransaction_fst_preserves inv hl' _ _ _

theorem preCommitTransaction2PC_preserves {s s' : MgrState} {db : DbM} (inv : MgrInv s)
    {tids : List Int} {tid : Nat} {infos : List TabletCommitInfo}
    {tinv : List (Nat × TabletMetaM)}
    (h : preCommitTransaction2PC s db tids tid infos tinv = .ok s') : MgrInv s' := by
  unfold preCommitTransaction2PC at h
  cases hl : lookupTxn s.txns tid with
  | none =>
    simp only [hl] at h
    exact Except.noConfusion h
  | some txn =>
    simp only [hl] at h
    have hid : txn.transaction_id = tid := lookupTxn_id hl
    have hl' : lookupTxn s.txns txn.transaction_id = some txn := by
      rw [hid]
      exact hl
    by_cases h1 : txn.status = TransactionStatus.ABORTED
    · rw [if_pos h1] at h
      exact Except.noConfusion h
    · rw [if_neg h1] at h
      by_cases h2 : txn.status = TransactionStatus.VISIBLE
      · rw [if_pos h2] at h
        exact Except.noConfusion h
      · rw [if_neg h2] at h
        by_cases h3 : txn.status = TransactionStatus.COMMITTED
        · rw [if_pos h3] at h
          exact Except.noConfusion h
        · rw [if_neg h3] at h
          by_cases h4 : txn.status = TransactionStatus.PRECOMMITTED
          · rw [if_pos h4] at h
            have h5 := Except.ok.inj h
            rw [← h5]
            exact inv
          · rw [if_neg h4] at h
            cases hcc : checkCommitStatus db tids txn infos tinv with
            | error e =>
              simp only [hcc] at h
              exact Except.noConfusion h
            | ok pr =>
              obtain ⟨maps, acc⟩ := pr
              simp only [hcc] at h
              by_cases h6 : txn.status ≠ TransactionStatus.PREPARE
              · rw [if_pos h6] at h
                have h5 := Except.ok.inj h
                rw [← h5]
                exact inv
              · rw [if_neg h6] at h
                have h5 := Except.ok.inj h
                rw [← h5]
                refine inv.upsertSame hl' rfl (fun ha => ?_)
                rw [not_not] at h6
                rw [h6] at ha
                exact TransactionStatus.noConfusion ha

theorem finishTransaction_committed_preserves {s s' : MgrState} {db db' : DbM}
    (inv : MgrInv s) {tid : Nat} {alter_jobs : Int → List Nat} {cfg : PublishCfg}
    {now : Int} {txn : TransactionState} {res : Option PublishResult}
    (hl : lookupTxn s.txns tid = some txn)
    (hst : txn.status = TransactionStatus.COMMITTED)
    (h : finishTransaction s db tid alter_jobs cfg now = .ok ((s', db'), res)) :
    MgrInv s' := by
  unfold finishTransaction at h
  simp only [hl] at h
  have hid : txn.transaction_id = tid := lookupTxn_id hl
  have hl' : lookupTxn s.txns txn.transaction_id = some txn := by
    rw [hid]
    exact hl
  have h6 : (finishTransactionWithTxn s db txn alter_jobs cfg now).1.1 = s' :=
    congrArg (fun x => x.1.1) (Except.ok.inj h)
  rw [← h6]
  unfold finishTransactionWithTxn
  have habs : txn.status = TransactionStatus.ABORTED → False := by
    intro ha
    rw [hst] at ha
    exact TransactionStatus.noConfusion ha
  by_cases hpv : (finishCheckPartitionVersion txn db).ok = false
  · rw [if_pos hpv]
    exact inv.mutateSame hl' rfl (fun ha => absurd ha habs)
  · rw [if_neg hpv]
    by_cases hq : (finishQuorumOf txn db alter_jobs cfg now).result = PublishResult.FAILED
    · rw [if_pos hq]
      exact inv.mutateSame hl' rfl (fun ha => absurd ha habs)
    · rw [if_neg hq]
      exact inv.upsertSame hl' rfl (fun ha => absurd ha habs)

theorem clearTransactionState_preserves {s : MgrState} (inv : MgrInv s) (tid : Nat) :
    MgrInv (clearTransactionState s tid) := by
  unfold clearTransactionState
  split
  · exact inv
  · split
    · refine ⟨?_, ?_, ?_, ?_⟩
      · exact inv.nodup.sublist (List.Sublist.map _ (List.filter_sublist _))
      · intro u hu
        exact inv.fresh u (List.mem_of_mem_filter hu)
      · intro u hu
        have h2 := List.mem_filter.mp hu
        have hne : ¬ u.transaction_id = tid := by simpa using h2.2
        exact removeLabelId_mono _ _ _ _ _ hne (inv.complete u h2.1)
      · intro lab
        refine le_trans ?_ (inv.amo lab)
        unfold labelCount
        exact List.Sublist.length_le (List.Sublist.filter _ (List.filter_sublist _))
    · exact inv

theorem initMgrInv : MgrInv initTxnSystem.mgr := by
  refine ⟨?_, ?_, ?_, ?_⟩
  · exact List.nodup_nil
  · intro t ht
    cases ht
  · intro t ht
    cases ht
  · intro lab
    exact Nat.zero_le 1

theorem stepG_preserves {a b : TxnSystem} (inv : MgrInv a.mgr) (h : TxnStepG a b) :
    MgrInv b.mgr := by
  cases h with
  | beginStep tbls label rid rl quota =>
    exact beginTransaction_preserves inv tbls label rid rl quota
  | commitStep tids tid infos tinv is2PC s' db' hc =>
    exact commitTransaction_preserves inv hc
  | precommitStep tids tid infos tinv s' hc =>
    exact preCommitTransaction2PC_preserves inv hc
  | abortStep tid s' hc =>
    exact abortTransaction_preserves inv hc
  | finishStep tid alter_jobs cfg now s' db' res txn hfound hst hc =>
    exact finishTransaction_committed_preserves inv hfound hst hc
  | expireStep tid =>
    exact clearTransactionState_preserves inv tid
  | envStep db' =>
    exact inv

/-- Transaction shape produced by the C1 scenario: label L, no tables,
no request id. -/
def mkC1Txn (tid : Nat) (st : TransactionStatus) : TransactionState :=
  { transaction_id := tid
    label := "L"
    request_id := none
    routine_load := false
    status := st
    table_id_list := []
    loaded_tbl_indexes := []
    table_commit_infos := []
    error_replicas := []
    publish_tasks := []
    first_publish_version_time := -1
    err_msg := none }

def c1Sys1 : TxnSystem := ⟨⟨[mkC1Txn 1 .PREPARE], [("L", [1])], 2⟩, ⟨[]⟩⟩

def c1Sys2 : TxnSystem := ⟨⟨[mkC1Txn 1 .ABORTED], [("L", [1])], 2⟩, ⟨[]⟩⟩

def c1Sys3 : TxnSystem :=
  ⟨⟨[mkC1Txn 1 .ABORTED, mkC1Txn 2 .PREPARE], [("L", [2, 1])], 3⟩, ⟨[]⟩⟩

def c1Sys4 : TxnSystem :=
  ⟨⟨[mkC1Txn 1 .VISIBLE, mkC1Txn 2 .PREPARE], [("L", [2, 1])], 3⟩, ⟨[]⟩⟩

/-- C1: the literal claim fails.  finishTransaction has no status guard,
so finishing an ABORTED transaction - whose commit-info list is empty -
vacuously passes the partition-version and quorum checks and sets it
VISIBLE.  After begin L (transaction 1), abort 1, begin L again
(transaction 2) and finish 1, label L holds two non-ABORTED
transactions, refuting the at-most-one invariant for the unrestricted
operation sequence. -/
theorem txn_label_invariant_counterexample :
    ReachableTxn c1Sys4 ∧ nonAbortedWithLabel c1Sys4.mgr "L" = 2 := by
  have h1 : TxnStep initTxnSystem c1Sys1 :=
    TxnStep.beginStep initTxnSystem [] "L" none false 1
  have h2 : TxnStep c1Sys1 c1Sys2 :=
    TxnStep.abortStep c1Sys1 1 c1Sys2.mgr rfl
  have h3 : TxnStep c1Sys2 c1Sys3 :=
    TxnStep.beginStep c1Sys2 [] "L" none false 1
  have h4 : TxnStep c1Sys3 c1Sys4 :=
    TxnStep.finishStep c1Sys3 1 (fun _ => []) ⟨0, false⟩ 0 c1Sys4.mgr c1Sys4.db
      (some .QUORUM_SUCC) rfl
  refine ⟨?_, by decide⟩
  exact Relation.ReflTransGen.tail
    (Relation.ReflTransGen.tail
      (Relation.ReflTransGen.tail
        (Relation.ReflTransGen.tail Relation.ReflTransGen.refl h1) h2) h3) h4

theorem reachableG_inv {sys : TxnSystem} (h : ReachableTxnG sys) : MgrInv sys.mgr := by
  unfold ReachableTxnG at h
  induction h with
  | refl => exact initMgrInv
  | tail hsteps hstep ih => exact stepG_preserves ih hstep

/-- C1 (amended): in the transition system whose moves are
beginTransaction, commitTransaction (1PC and 2PC), preCommitTransaction,
abortTransaction, expiry cleanup (clearTransactionState), arbitrary
catalog changes, and finishTransaction restricted to COMMITTED
transactions (the only way its caller, the publish daemon working off
getCommittedTxnList, invokes it), every reachable manager state has at
most one non-ABORTED transaction per label.  Without the restriction on
finishTransaction the property fails, see the counterexample. -/
theorem txn_label_invariant_guarded (sys : TxnSystem) (h : ReachableTxnG sys)
    (lab : String) : nonAbortedWithLabel sys.mgr lab ≤ 1 :=
  (reachableG_inv h).amo lab

/-- Witness for the amended C1 theorem: the state after one begin of
label L is guarded-reachable and satisfies the bound. -/
theorem txn_label_invariant_guarded_witness :
    ReachableTxnG c1Sys1 ∧ nonAbortedWithLabel c1Sys1.mgr "L" ≤ 1 := by
  have hr : ReachableTxnG c1Sys1 :=
    Relation.ReflTransGen.tail Relation.ReflTransGen.refl
      (TxnStepG.beginStep initTxnSystem [] "L" none false 1)
  exact ⟨hr, txn_label_invariant_guarded c1Sys1 hr "L"⟩

end Doris
